import Mathlib

/-!
Verification development for the I-765 form-filling pipeline
(`src/core/field-mapper.js`, `src/core/pdf-processor.js`,
`src/form-main/core/data-models.js`).

The JavaScript code is shallowly embedded: dynamic JS values become the
inductive type `JsVal`, object mutation becomes explicit state passing,
and code that can throw returns `Option`/`Except`.  Host facilities that
the code consumes as opaque capabilities (the ECMAScript `Date(string)`
parser, the pdf-lib form API) are modelled explicitly and minimally, as
noted at each definition.
-/

set_option maxRecDepth 10000

/-- A JavaScript runtime value, restricted to the shapes this codebase
manipulates: `undefined`, `null`, booleans, strings, integer numbers,
arrays and plain objects (ordered key/value lists, as JS objects preserve
insertion order).  Non-integer numbers, functions and exotic objects do
not occur in the mapped data and are not modelled. -/
inductive JsVal where
  | undef
  | null
  | bool (b : Bool)
  | str (s : String)
  | num (n : Int)
  | arr (xs : List JsVal)
  | obj (fs : List (String × JsVal))

/-- JS truthiness (`Boolean(v)`): `undefined`, `null`, `false`, `""` and
`0` are falsy; every object/array is truthy. -/
def jsTruthy : JsVal → Bool
  | .undef => false
  | .null => false
  | .bool b => b
  | .str s => s ≠ ""
  | .num n => n ≠ 0
  | .arr _ => true
  | .obj _ => true

def JsVal.isUndef : JsVal → Bool
  | .undef => true
  | _ => false

def JsVal.isNull : JsVal → Bool
  | .null => true
  | _ => false

def JsVal.isNullOrUndef : JsVal → Bool
  | .undef => true
  | .null => true
  | _ => false

def JsVal.isArr : JsVal → Bool
  | .arr _ => true
  | _ => false

def JsVal.isObj : JsVal → Bool
  | .obj _ => true
  | _ => false

/-- JS `typeof v === 'object'`: true for plain objects, arrays and
`null`. -/
def JsVal.isObjectType : JsVal → Bool
  | .obj _ => true
  | .arr _ => true
  | .null => true
  | _ => false

/-- `v === true` / comparison of a value against a boolean literal. -/
def JsVal.eqBool : JsVal → Bool → Bool
  | .bool b, c => b == c
  | _, _ => false

/-- `v === "s"` / comparison of a value against a string literal. -/
def JsVal.eqStr : JsVal → String → Bool
  | .str t, s => t == s
  | _, _ => false

/-- JS strict equality `===` restricted to the primitive values this
codebase compares.  Object/array comparisons are reference equality in
JS; the values compared here are always freshly built, so those
comparisons are modelled as `false`. -/
def jsStrictEq : JsVal → JsVal → Bool
  | .undef, .undef => true
  | .null, .null => true
  | .bool a, .bool b => a == b
  | .str a, .str b => a == b
  | .num a, .num b => a == b
  | _, _ => false

/-- First value stored under `k` in an object's field list; `undefined`
when the key is absent (JS property read). -/
def objGet : List (String × JsVal) → String → JsVal
  | [], _ => .undef
  | (k', v) :: rest, k => if k' = k then v else objGet rest k

/-- JS property write `o[k] = v`: replaces the existing entry in place,
otherwise appends (JS objects keep first-insertion order). -/
def objSet : List (String × JsVal) → String → JsVal → List (String × JsVal)
  | [], k, v => [(k, v)]
  | (k', v') :: rest, k, v =>
    if k' = k then (k, v) :: rest else (k', v') :: objSet rest k v

/-- JS array element read `a[i]`: `undefined` for holes and out-of-range
indices. -/
def arrGet (xs : List JsVal) (i : Nat) : JsVal := xs.getD i (.undef)

/-- JS array element write `a[i] = v`: extends the array with holes
(read back as `undefined`) when `i` is past the end. -/
def arrSet : List JsVal → Nat → JsVal → List JsVal
  | [], 0, v => [v]
  | [], i + 1, v => .undef :: arrSet [] i v
  | _ :: rest, 0, v => v :: rest
  | x :: rest, i + 1, v => x :: arrSet rest i v

/-- Property read on an arbitrary value, as used by the mapper's
non-numeric path steps: objects give the stored value; everything else
(arrays with a non-index key, boxed primitives) gives `undefined`.
Inherited members and the array `length` property are not exercised by
any `data_path` in this codebase and are not modelled. -/
def jsGetProp : JsVal → String → JsVal
  | .obj fs, k => objGet fs k
  | _, _ => (.undef)

/-- Digits of `c` interpreted as a decimal digit character. -/
def decDigit (n : Nat) : Char :=
  match n % 10 with
  | 0 => '0' | 1 => '1' | 2 => '2' | 3 => '3' | 4 => '4'
  | 5 => '5' | 6 => '6' | 7 => '7' | 8 => '8' | _ => '9'

/-- Fuel-indexed decimal printer; `fuel ≥ number of digits - 1` gives the
standard decimal expansion.  Called with `fuel = n`, which always
suffices. -/
def natToDecAux : Nat → Nat → List Char
  | 0, n => [decDigit n]
  | fuel + 1, n => if n < 10 then [decDigit n] else natToDecAux fuel (n / 10) ++ [decDigit n]

/-- Decimal digit list of `n` (the model of JS `String(n)` for
non-negative integers). -/
def natToDecList (n : Nat) : List Char := natToDecAux n n

def natToDec (n : Nat) : String := String.mk (natToDecList n)

/-- Model of JS `String(n)` for an integer number. -/
def intToDec (i : Int) : String :=
  if i < 0 then "-" ++ natToDec i.natAbs else natToDec i.natAbs

/-- Numeric value of a list of decimal digit characters (the model of JS
`ToNumber`/`parseInt` on an all-digits string). -/
def decListToNat (l : List Char) : Nat :=
  l.foldl (fun a c => 10 * a + (c.toNat - 48)) 0

/-- A path segment consisting solely of digits (JS `/^\d+$/`). -/
def isDigits (s : String) : Bool := s ≠ "" && s.data.all Char.isDigit

/-- `parseInt(segment, 10)` on an all-digits segment. -/
def segToNat (s : String) : Nat := decListToNat s.data

/-- JS `String.prototype.split` with a single-character separator,
defined over the character list. -/
def splitOnChar (sep : Char) : List Char → List (List Char)
  | [] => [[]]
  | c :: rest =>
    let r := splitOnChar sep rest
    if c = sep then [] :: r
    else
      match r with
      | [] => [[c]]
      | h :: t => (c :: h) :: t

/-- `path.split('.')` as a list of segment strings. -/
def pathParts (path : String) : List String :=
  (splitOnChar '.' path.data).map String.mk

/-- `leadsWith pat l` holds when `l` starts with `pat`. -/
def leadsWith : List Char → List Char → Bool
  | [], _ => true
  | _ :: _, [] => false
  | p :: ps, c :: cs => p == c && leadsWith ps cs

/-- Substring containment over character lists (JS
`String.prototype.includes`; the empty needle is contained). -/
def containsSeq : List Char → List Char → Bool
  | _, [] => true
  | [], _ :: _ => false
  | c :: cs, p :: ps => leadsWith (p :: ps) (c :: cs) || containsSeq cs (p :: ps)

/-- JS `haystack.includes(needle)`. -/
def strContains (s sub : String) : Bool := containsSeq s.data sub.data

/-- ASCII lower-casing of one character (JS `toLowerCase`; the field
names and patterns in this codebase are ASCII). -/
def charLower (c : Char) : Char :=
  if 'A' ≤ c ∧ c ≤ 'Z' then Char.ofNat (c.toNat + 32) else c

/-- ASCII upper-casing of one character (JS `toUpperCase`). -/
def charUpper (c : Char) : Char :=
  if 'a' ≤ c ∧ c ≤ 'z' then Char.ofNat (c.toNat - 32) else c

def strLower (s : String) : String := String.mk (s.data.map charLower)

def strUpper (s : String) : String := String.mk (s.data.map charUpper)

/-- JS `s.replace(/[^a-zA-Z0-9]/g, '')`. -/
def stripNonAlnum (s : String) : String := String.mk (s.data.filter Char.isAlphanum)

/-- JS `s.replace(/\./g, '_')`. -/
def dotsToUnderscores (s : String) : String :=
  String.mk (s.data.map fun c => if c = '.' then '_' else c)

/-- JS `s.replace(/\./g, '')`. -/
def dotsRemoved (s : String) : String := String.mk (s.data.filter fun c => c ≠ '.')

/-- Comma-join of already-stringified array elements (JS
`Array.prototype.join` with the default separator). -/
def joinCommaSep : List String → String
  | [] => ""
  | [x] => x
  | x :: y :: rest => x ++ "," ++ joinCommaSep (y :: rest)

/-- Structural size of a value, used only as a fuel bound for
stringifying nested arrays (it strictly exceeds the nesting depth). -/
def jsSize : JsVal → Nat
  | .undef => 1
  | .null => 1
  | .bool _ => 1
  | .str _ => 1
  | .num _ => 1
  | .obj _ => 1
  | .arr xs => 1 + (xs.attach.map (fun x => jsSize x.1)).foldl (fun a b => a + b) 0
decreasing_by
  have h := List.sizeOf_lt_of_mem x.2
  simp only [JsVal.arr.sizeOf_spec]
  omega

/-- Fuel-indexed body of the JS `String(v)` coercion of arrays; the
fuel only bounds descent through nested arrays and is passed as
`jsSize v`, which always exceeds the nesting depth, so the `0, .arr`
row is never reached. -/
def jsToStringAux : Nat → JsVal → String
  | _, .undef => "undefined"
  | _, .null => "null"
  | _, .bool b => if b then "true" else "false"
  | _, .str s => s
  | _, .num n => intToDec n
  | _, .obj _ => "[object Object]"
  | 0, .arr _ => ""
  | fuel + 1, .arr xs =>
    joinCommaSep (xs.map fun x =>
      match x with
      | .undef => ""
      | .null => ""
      | v => jsToStringAux fuel v)

/-- JS `String(v)` string coercion for the values this codebase
stringifies: primitives print as in ECMAScript, plain objects as
`[object Object]`, arrays as their comma-joined elements (with `null`
and `undefined` elements printing as empty). -/
def jsToString : JsVal → String
  | .undef => "undefined"
  | .null => "null"
  | .bool b => if b then "true" else "false"
  | .str s => s
  | .num n => intToDec n
  | .obj _ => "[object Object]"
  | .arr xs => jsToStringAux (jsSize (.arr xs)) (.arr xs)

/-! ## Calendar model (ECMAScript `Date`)

`FieldMapper.formatDate` builds `new Date(year, month - 1, day)` from an
ISO string and reads the date back through `getMonth`/`getDate`/
`getFullYear`.  A `Date` built from numeric components is modelled as
the normalized civil triple `(fullYear, month0, dayOfMonth)` with
`month0` 0-based, exactly the values those accessors return.  The
constructor normalizes out-of-range months and days by calendar
arithmetic and applies the ECMAScript two-digit-year rule (years 0-99
read as 1900-1999).  Inputs here come from `\d{4}` / `\d{2}` regex
groups, so the time value never overflows the `Date` range and `getTime`
is never `NaN` on this path. -/

def isLeapYear (y : Int) : Bool :=
  (y % 4 == 0 && y % 100 != 0) || y % 400 == 0

/-- Days in 0-based month `m0` of year `y` (callers pass `m0 ∈ [0,11]`). -/
def daysInMonth (y : Int) (m0 : Int) : Int :=
  if m0 = 1 then (if isLeapYear y then 29 else 28)
  else if m0 = 3 ∨ m0 = 5 ∨ m0 = 8 ∨ m0 = 10 then 30
  else 31

/-- Calendar normalization of a day-of-month that may be out of
`[1, daysInMonth]`, rolling across month and year boundaries.  `fuel`
bounds the number of month steps; callers pass fuel that exceeds the
worst case for their inputs (here days come from `\d{2}`, so at most a
handful of steps). -/
def normDate (fuel : Nat) (y m0 d : Int) : Int × Int × Int :=
  match fuel with
  | 0 => (y, m0, d)
  | fuel + 1 =>
    if d < 1 then
      let m0' := m0 - 1
      let y' := if m0' < 0 then y - 1 else y
      let m0'' := if m0' < 0 then 11 else m0'
      normDate fuel y' m0'' (d + daysInMonth y' m0'')
    else if d > daysInMonth y m0 then
      let d' := d - daysInMonth y m0
      let m0' := m0 + 1
      let y' := if m0' > 11 then y + 1 else y
      let m0'' := if m0' > 11 then 0 else m0'
      normDate fuel y' m0'' d'
    else (y, m0, d)

/-- `new Date(y, m, d)` with numeric arguments: the two-digit-year rule,
then floor-division month normalization, then day normalization.  The
result triple is `(getFullYear(), getMonth(), getDate())`. -/
def mkJsDate (y m d : Int) : Int × Int × Int :=
  let y' := if 0 ≤ y ∧ y ≤ 99 then y + 1900 else y
  let t := y' * 12 + m
  normDate (d.natAbs + 100) (t / 12) (t % 12) d

/-- The host `new Date(string)` parser, consumed as an opaque
capability: it yields the `(getFullYear, getMonth, getDate)` triple, or
`none` when parsing fails (`getTime()` is `NaN`).  The code under
verification only checks the `NaN` case and reads the three accessors,
so no more structure is needed. -/
def JsDateParse := String → Option (Int × Int × Int)

/-- Character at position `i`, with a non-digit placeholder default. -/
def charAt (l : List Char) (i : Nat) : Char := l.getD i ' '

/-- JS regex test `/^\d{4}-\d{2}-\d{2}$/.test(s)`. -/
def isIsoDateStr (s : String) : Bool :=
  s.data.length == 10 &&
  (charAt s.data 0).isDigit && (charAt s.data 1).isDigit &&
  (charAt s.data 2).isDigit && (charAt s.data 3).isDigit &&
  charAt s.data 4 == '-' &&
  (charAt s.data 5).isDigit && (charAt s.data 6).isDigit &&
  charAt s.data 7 == '-' &&
  (charAt s.data 8).isDigit && (charAt s.data 9).isDigit

/-- JS regex test `/^\d{2}\/\d{2}\/\d{4}$/.test(s)`. -/
def isMmDdYyyyStr (s : String) : Bool :=
  s.data.length == 10 &&
  (charAt s.data 0).isDigit && (charAt s.data 1).isDigit &&
  charAt s.data 2 == '/' &&
  (charAt s.data 3).isDigit && (charAt s.data 4).isDigit &&
  charAt s.data 5 == '/' &&
  (charAt s.data 6).isDigit && (charAt s.data 7).isDigit &&
  (charAt s.data 8).isDigit && (charAt s.data 9).isDigit

/-- JS `String(n).padStart(2, '0')`. -/
def pad2 (n : Int) : String :=
  let s := intToDec n
  if s.data.length < 2 then "0" ++ s else s

namespace FieldMapper

/-! ## `FieldMapper` (src/core/field-mapper.js)

Methods become functions over `JsVal`; `this.config` is passed
explicitly.  `setNestedValue` returns `Option JsVal`: `none` models the
cases where the JS method (strict mode, being a class method) throws a
`TypeError` — writing a property on a primitive or descending through
one — plus the single unexercised case of storing a non-index string key
on an array (such a property is invisible to `getNestedValue`, which
treats digit segments as array indices only, and to every caller in the
codebase; it is therefore not representable in the model). -/

/-- `getNestedValue`'s traversal loop over the split path segments.
Mirrors src/core/field-mapper.js lines 158-174: each iteration first
returns `undefined` on a `null`/`undefined` container; an all-digits
segment is resolved only against an array (returning `undefined`
otherwise, even when a same-named key exists); other segments are
property reads. -/
def getNestedParts : JsVal → List String → JsVal
  | cur, [] => cur
  | cur, p :: rest =>
    if cur.isNullOrUndef then .undef
    else if isDigits p then
      match cur with
      | .arr xs =>
        let x := arrGet xs (segToNat p)
        if x.isUndef then .undef else getNestedParts x rest
      | _ => .undef
    else getNestedParts (jsGetProp cur p) rest

/-- `FieldMapper.getNestedValue(obj, path)` (lines 152-175). -/
def getNestedValue (o : JsVal) (path : String) : JsVal :=
  if path = "" ∨ ¬jsTruthy o then .undef
  else getNestedParts o (pathParts path)

/-- `setNestedValue`'s loop (lines 397-414) followed by the final
`current[lastPart] = value`.  The first argument list holds the
intermediate segments (`parts` after `pop()`), the `last` argument the
popped final segment.  On a digit segment against a non-array object the
source first stores `current[part] = []` under the literal segment
string and then reads/creates `current[index]` under the canonical
index string — both writes are performed here, matching the JS trace. -/
def setNestedParts : JsVal → List String → String → JsVal → Option JsVal
  | cur, [], last, v =>
    match cur with
    | .obj fs => some (.obj (objSet fs last v))
    | .arr xs =>
      if isDigits last ∧ last = natToDec (segToNat last) then
        some (.arr (arrSet xs (segToNat last) v))
      else none
    | _ => none
  | cur, p :: rest, last, v =>
    if isDigits p then
      match cur with
      | .arr xs =>
        let idx := segToNat p
        let elem := arrGet xs idx
        let elem' := if jsTruthy elem then elem else .obj []
        match setNestedParts elem' rest last v with
        | some sub => some (.arr (arrSet xs idx sub))
        | none => none
      | .obj fs =>
        let fs1 := objSet fs p (.arr [])
        let key := natToDec (segToNat p)
        let elem := objGet fs1 key
        let elem' := if jsTruthy elem then elem else .obj []
        match setNestedParts elem' rest last v with
        | some sub => some (.obj (objSet fs1 key sub))
        | none => none
      | _ => none
    else
      match cur with
      | .obj fs =>
        let c := objGet fs p
        let c' := if jsTruthy c ∧ c.isObjectType then c else .obj []
        match setNestedParts c' rest last v with
        | some sub => some (.obj (objSet fs p sub))
        | none => none
      | _ => none

/-- `FieldMapper.setNestedValue(obj, path, value)` (lines 390-417),
returning the updated object (the JS method mutates `obj` in place); an
early return on a falsy path or object leaves the object unchanged. -/
def setNestedValue (o : JsVal) (path : String) (v : JsVal) : Option JsVal :=
  if path = "" ∨ ¬jsTruthy o then some o
  else
    let parts := pathParts path
    setNestedParts o parts.dropLast (parts.getLastD "") v

/-- `FieldMapper.applyValueMapping(value, mapping)` (lines 184-198).
The mapping argument is always an object literal from the schema, so the
`typeof mapping === 'object'` guard holds. -/
def applyValueMapping (value : JsVal) (mapping : List (String × JsVal)) : JsVal :=
  if ¬(objGet mapping "checked").isUndef ∧ value.eqBool true then
    objGet mapping "checked"
  else if ¬(objGet mapping (jsToString value)).isUndef then
    objGet mapping (jsToString value)
  else value

/-- `FieldMapper.reverseValueMapping(value, mapping)` (lines 308-320):
first entry whose stored value strictly equals `value` wins; a hit on
the `checked` key reverses to boolean `true`. -/
def reverseValueMapping (value : JsVal) : List (String × JsVal) → JsVal
  | [] => value
  | (k, mv) :: rest =>
    if jsStrictEq mv value then (if k = "checked" then .bool true else .str k)
    else reverseValueMapping value rest

/-- `FieldMapper.formatDate(date)` (lines 232-260), parameterized by the
host `Date(string)` parser used on strings matching neither regex.
`Date` instances are never stored in profiles in this codebase, so the
`instanceof Date` branch is not modelled; non-string inputs fall to the
final `return ''`.  On the ISO branch the `date.split('-')` components
are read positionally, which the just-checked regex shape guarantees. -/
def formatDate (hostParse : JsDateParse) (date : JsVal) : String :=
  if ¬jsTruthy date then ""
  else
    match date with
    | .str s =>
      if isIsoDateStr s then
        let y : Int := decListToNat (s.data.take 4)
        let m : Int := decListToNat ((s.data.drop 5).take 2)
        let d : Int := decListToNat (s.data.drop 8)
        let r := mkJsDate y (m - 1) d
        pad2 (r.2.1 + 1) ++ "/" ++ pad2 r.2.2 ++ "/" ++ intToDec r.1
      else if isMmDdYyyyStr s then s
      else
        match hostParse s with
        | none => ""
        | some r => pad2 (r.2.1 + 1) ++ "/" ++ pad2 r.2.2 ++ "/" ++ intToDec r.1
    | _ => ""

/-- `FieldMapper.formatValue(value, type)` (lines 207-224); `type` is
`none` when the descriptor has no `type` (hits the `default` branch). -/
def formatValue (hostParse : JsDateParse) (value : JsVal) (ty : Option String) : String :=
  if value.isNullOrUndef then ""
  else
    match ty with
    | some "Date Input" => formatDate hostParse value
    | some "Checkbox" => if value.eqBool true ∨ value.eqStr "true" then "X" else ""
    | some "Radio" => jsToString value
    | _ => jsToString value

/-- `FieldMapper.parseDate(dateStr)` (lines 356-381): `MM/DD/YYYY` is
reassembled to ISO from the regex capture groups (read positionally
here, as the shape check guarantees), ISO passes through, and anything
else goes to the host parser, unparseable values giving `''`. -/
def parseDate (hostParse : JsDateParse) (s : String) : String :=
  if s = "" then ""
  else if isMmDdYyyyStr s then
    String.mk (s.data.drop 6 ++ '-' :: s.data.take 2 ++ '-' :: (s.data.drop 3).take 2)
  else if isIsoDateStr s then s
  else
    match hostParse s with
    | none => ""
    | some r => intToDec r.1 ++ "-" ++ pad2 (r.2.1 + 1) ++ "-" ++ pad2 r.2.2

/-- `FieldMapper.parseValue(value, type)` (lines 329-348).  Values
reaching the `Date Input` branch are strings in every call path (they
are built by `formatValue`); a non-string there would throw inside
`parseDate` and is mapped to `''`. -/
def parseValue (hostParse : JsDateParse) (value : JsVal) (ty : Option String) : JsVal :=
  if value.isNullOrUndef ∨ value.eqStr "" then
    if ty = some "Checkbox" then .bool false else .str ""
  else
    match ty with
    | some "Checkbox" => .bool (value.eqStr "X" ∨ value.eqBool true ∨ value.eqStr "true")
    | some "Radio" => .str (jsToString value)
    | some "Date Input" =>
      match value with
      | .str s => .str (parseDate hostParse s)
      | _ => .str ""
    | _ => .str (jsToString value)

end FieldMapper

namespace FieldMapper

/-- One schema field descriptor, with exactly the properties the mapper
reads.  `Option` models an absent property (`undefined`); the JS
truthiness tests on `field_id`/`data_path` also treat an empty string as
absent.  The `type` property is called `ty` (`type` is not a valid Lean
field name); `value_mapping` is the schema's mapping object. -/
structure FieldDesc where
  field_id : Option String := none
  data_path : Option String := none
  pdf_field_name : Option String := none
  item_number : Option String := none
  ty : Option String := none
  value_mapping : Option (List (String × JsVal)) := none

/-- One schema part (`config.parts[i]`); `fields` is `none` when the
part has no `fields` property (the loops `continue`). -/
structure Part where
  fields : Option (List FieldDesc) := none

/-- The loaded configuration object. -/
structure Config where
  parts : Option (List Part) := none

/-- Truthiness of an optional string property (`!field.field_id`). -/
def optTruthy : Option String → Bool
  | some s => s ≠ ""
  | none => false

/-- The mapper's output entry for one field
(src/core/field-mapper.js lines 124-129). -/
structure ResolvedEntry where
  value : JsVal
  pdfFieldName : String
  field : FieldDesc
  originalValue : JsVal

/-- Lookup in the `formData` object built by `mapProfileToForm`. -/
def assocGet {α : Type} : List (String × α) → String → Option α
  | [], _ => none
  | (k', v) :: rest, k => if k' = k then some v else assocGet rest k

/-- JS object write for the `formData` accumulator (same key order
semantics as `objSet`). -/
def assocSet {α : Type} : List (String × α) → String → α → List (String × α)
  | [], k, v => [(k, v)]
  | (k', v') :: rest, k, v =>
    if k' = k then (k, v) :: rest else (k', v') :: assocSet rest k v

/-- `pdf_field_name || item_number || field_id` (line 122). -/
def pdfNameOf (f : FieldDesc) : String :=
  if optTruthy f.pdf_field_name then f.pdf_field_name.getD ""
  else if optTruthy f.item_number then f.item_number.getD ""
  else f.field_id.getD ""

/-- The inclusion test of `mapProfileToForm` (lines 108-109): a defined,
non-null, non-empty resolved value, or a Checkbox/Radio descriptor. -/
def shouldInclude (value : JsVal) (f : FieldDesc) : Bool :=
  (!value.isUndef && !value.isNull && !value.eqStr "") ||
    f.ty == some "Checkbox" || f.ty == some "Radio"

/-- The mapped (possibly value-translated) output of one descriptor:
`applyValueMapping` when a `value_mapping` is present, then
`formatValue` (lines 112-119). -/
def mappedOutput (hostParse : JsDateParse) (value : JsVal) (f : FieldDesc) : String :=
  formatValue hostParse
    (match f.value_mapping with
     | some m => applyValueMapping value m
     | none => value) f.ty

/-- The body of `mapProfileToForm`'s inner loop for one descriptor
(lines 99-136). -/
def mapFieldStep (hostParse : JsDateParse) (profile : JsVal)
    (formData : List (String × ResolvedEntry)) (f : FieldDesc) :
    List (String × ResolvedEntry) :=
  if ¬optTruthy f.field_id ∨ ¬optTruthy f.data_path then formData
  else if shouldInclude (getNestedValue profile (f.data_path.getD "")) f then
    assocSet formData (f.field_id.getD "")
      ⟨.str (mappedOutput hostParse (getNestedValue profile (f.data_path.getD "")) f),
        pdfNameOf f, f, getNestedValue profile (f.data_path.getD "")⟩
  else formData

/-- `FieldMapper.mapProfileToForm(profile)` (lines 84-143): the nested
part/field loops accumulating the `formData` object.  An unloaded or
partless config gives the empty result. -/
def mapProfileToForm (hostParse : JsDateParse) (config : Config) (profile : JsVal) :
    List (String × ResolvedEntry) :=
  match config.parts with
  | none => []
  | some parts =>
    parts.foldl (fun formData part =>
      match part.fields with
      | none => formData
      | some fields => fields.foldl (mapFieldStep hostParse profile) formData) []

/-- The body of `mapFormToProfile`'s inner loop for one descriptor
(lines 277-295); `none` propagates a `setNestedValue` throw. -/
def reverseFieldStep (hostParse : JsDateParse)
    (formData : List (String × ResolvedEntry)) (profile : JsVal) (f : FieldDesc) :
    Option JsVal :=
  if ¬optTruthy f.field_id ∨ ¬optTruthy f.data_path then some profile
  else
    match assocGet formData (f.field_id.getD "") with
    | none => some profile
    | some fieldData =>
      if fieldData.value.isUndef then some profile
      else
        setNestedValue profile (f.data_path.getD "")
          (parseValue hostParse
            (match f.value_mapping with
             | some m => reverseValueMapping fieldData.value m
             | none => fieldData.value) f.ty)

/-- `FieldMapper.mapFormToProfile(formData, profile)` (lines 268-299),
returning the updated profile (the JS method mutates it in place). -/
def mapFormToProfile (hostParse : JsDateParse) (config : Config)
    (formData : List (String × ResolvedEntry)) (profile : JsVal) : Option JsVal :=
  match config.parts with
  | none => some profile
  | some parts =>
    parts.foldlM (fun prof part =>
      match part.fields with
      | none => some prof
      | some fields => fields.foldlM (reverseFieldStep hostParse formData) prof) profile

/-- Alignment of an object with a split path, mirroring the descent of
`setNestedParts`: the final segment meets a keyed object (or, for a
canonically written digit segment, an array), and every intermediate
segment meets a container of its kind — an array at a digit segment, a
keyed object elsewhere — descending into the same child `setNestedValue`
would use or create.  This is the precondition under which a write is
observable by `getNestedValue` at the same path. -/
def pathFits : JsVal → List String → String → Bool
  | cur, [], last =>
    if isDigits last then cur.isArr && (last = natToDec (segToNat last))
    else cur.isObj
  | cur, p :: rest, last =>
    if isDigits p then
      match cur with
      | .arr xs =>
        let elem := arrGet xs (segToNat p)
        let elem' := if jsTruthy elem then elem else .obj []
        pathFits elem' rest last
      | _ => false
    else
      match cur with
      | .obj fs =>
        let c := objGet fs p
        let c' := if jsTruthy c ∧ c.isObjectType then c else .obj []
        pathFits c' rest last
      | _ => false


/-- A resolved value that passes the non-empty part of the inclusion
test: defined, non-null and not the empty string. -/
def NonEmptyVal (v : JsVal) : Prop :=
  v ≠ .undef ∧ v ≠ .null ∧ v ≠ .str ""

/-- All field descriptors of a configuration in part order, the flat
view of the nested part/field loops. -/
def configFields (c : Config) : List FieldDesc :=
  match c.parts with
  | none => []
  | some parts => (parts.map (fun p => p.fields.getD [])).flatten

end FieldMapper

namespace ApplicantProfile

/-- Validation result `{ isValid, errors }` returned by the
`ApplicantProfile` validators. -/
structure ValidationResult where
  isValid : Bool
  errors : List String

/-- The `eligibilityInfo` record exactly as the `ApplicantProfile`
constructor lays it out (src/form-main/core/data-models.js lines
77-103), with every leaf value a parameter.  In particular the
prior-denial flags live under the nested `workAuthorization` object and
nowhere at the top level. -/
def mkEligibilityInfo
    (category categoryDescription : JsVal)
    (daca asylumAdjudication refugeeStatus specialImmigrantStatus
      family employment other otherDescription : JsVal)
    (neverBeenGrantedEAD previouslyDeniedEAD previouslyRevokedEAD
      invalidatingFactors : JsVal)
    (hasConverterion convictionDetails : JsVal)
    (applicationPurpose requestedCategory isEligible : JsVal) : JsVal :=
  .obj
    [("category", category),
     ("categoryDescription", categoryDescription),
     ("basisForEligibility", .obj
       [("deferredActionForChildroodsArrivals", daca),
        ("asylumAdjudication", asylumAdjudication),
        ("refugeeStatus", refugeeStatus),
        ("specialImmigrantStatus", specialImmigrantStatus),
        ("family", family),
        ("employment", employment),
        ("other", other),
        ("otherDescription", otherDescription)]),
     ("workAuthorization", .obj
       [("neverBeenGrantedEAD", neverBeenGrantedEAD),
        ("previouslyDeniedEAD", previouslyDeniedEAD),
        ("previouslyRevokedEAD", previouslyRevokedEAD),
        ("invalidatingFactors", invalidatingFactors)]),
     ("criminalBackground", .obj
       [("hasConverterion", hasConverterion),
        ("convictionDetails", convictionDetails)]),
     ("applicationPurpose", applicationPurpose),
     ("requestedCategory", requestedCategory),
     ("isEligible", isEligible)]

/-- `ApplicantProfile.validateEligibility()` (lines 228-243), as a
function of the `this.eligibilityInfo` value it dereferences.  Note the
denial branch reads `eligibility.previouslyDeniedEAD` and
`eligibility.previouslyRevokedEAD` at the top level of the record. -/
def validateEligibility (eligibility : JsVal) : ValidationResult :=
  let errors :=
    (if ¬jsTruthy (jsGetProp eligibility "category")
      then ["EAD category is required"] else []) ++
    (if ¬jsTruthy (jsGetProp eligibility "applicationPurpose")
      then ["Application purpose is required"] else []) ++
    (if jsTruthy (jsGetProp eligibility "previouslyDeniedEAD")
        ∨ jsTruthy (jsGetProp eligibility "previouslyRevokedEAD")
      then ["Applicants with previous denials or revocations may have eligibility issues"]
      else [])
  ⟨errors.length == 0, errors⟩

end ApplicantProfile

namespace PDFProcessor

/-! ## `PDFProcessor` (src/core/pdf-processor.js)

pdf-lib is consumed as an opaque capability: a loaded document exposes
an ordered list of named form fields, each a text field or a checkbox
(the only kinds this code fills); `getTextField`/`getCheckBox` throw —
modelled as a failed lookup — when no field of that name and kind
exists; `save()` serializes the document.  Serialized bytes are
modelled as carrying the document content, which is all `load` recovers
from them. -/

inductive PdfFieldVal where
  | text (s : String)
  | checkbox (checked : Bool)

structure PdfField where
  name : String
  val : PdfFieldVal

structure PdfDoc where
  fields : List PdfField

/-- Serialized PDF bytes, identified with the document content they
decode to. -/
structure PdfBytes where
  doc : PdfDoc

def savePdf (d : PdfDoc) : PdfBytes := ⟨d⟩

def loadPdf (b : PdfBytes) : PdfDoc := b.doc

/-- `form.getTextField(name)`: the field, or `none` for the
`NoSuchFieldError`/`UnexpectedFieldTypeError` throw the caller
catches. -/
def findTextField (d : PdfDoc) (name : String) : Option PdfField :=
  d.fields.find? fun f =>
    f.name = name && match f.val with | .text _ => true | .checkbox _ => false

/-- `form.getCheckBox(name)`: the field, or `none` for a throw. -/
def findCheckBox (d : PdfDoc) (name : String) : Option PdfField :=
  d.fields.find? fun f =>
    f.name = name && match f.val with | .text _ => false | .checkbox _ => true

/-- `field.setText(s)` on the first text field of that name. -/
def setTextField (d : PdfDoc) (name : String) (s : String) : PdfDoc :=
  ⟨d.fields.map fun f =>
    match f.val with
    | .text _ => if f.name = name then { f with val := .text s } else f
    | .checkbox _ => f⟩

/-- `checkbox.check()` / `checkbox.uncheck()` on the first checkbox of
that name (every name in a PDF form is unique, so mapping all matches
of the right kind is faithful). -/
def setCheckBoxField (d : PdfDoc) (name : String) (checked : Bool) : PdfDoc :=
  ⟨d.fields.map fun f =>
    match f.val with
    | .text _ => f
    | .checkbox _ => if f.name = name then { f with val := .checkbox checked } else f⟩

/-- `form.flatten()`: form fields are burned into page content; the
interactive field list becomes empty. -/
def flattenDoc (_ : PdfDoc) : PdfDoc := ⟨[]⟩

/-- `String(value || '')` as used by `field.setText` calls. -/
def strOfValue (v : JsVal) : String :=
  if jsTruthy v then jsToString v else ""

/-- The checkbox condition on the name-variation path
(src/core/pdf-processor.js line 257): literal mark, boolean `true`, or
one of the domain tokens. -/
def checkboxCondLong (v : JsVal) : Bool :=
  v.eqBool true ∨ v.eqStr "X" ∨ v.eqStr "checked" ∨ v.eqStr "Yes" ∨
    v.eqStr "initial" ∨ v.eqStr "replacement" ∨ v.eqStr "renewal"

/-- The checkbox condition on the fuzzy-match path (line 299): only the
mark, boolean `true`, `checked` and `Yes`. -/
def checkboxCondShort (v : JsVal) : Bool :=
  v.eqBool true ∨ v.eqStr "X" ∨ v.eqStr "checked" ∨ v.eqStr "Yes"

/-- The static item-number → alias-list table of
`buildFieldNameMapping` (lines 126-158), after JS object-literal
evaluation: the keys `1.a.`, `1.b.`, `1.c.` appear twice in the source
literal (once for Part 1, once for Part 2); the later value wins at the
first occurrence's position, so the Part 1 alias lists are dead. -/
def fieldPatterns : List (String × List String) :=
  [("1.a.", ["1a", "1_a", "last_name", "family_name", "surname", "Part2_1a"]),
   ("1.b.", ["1b", "1_b", "first_name", "given_name", "Part2_1b"]),
   ("1.c.", ["1c", "1_c", "middle_name", "Part2_1c"]),
   ("5.a.", ["5a", "5_a", "mailing_in_care_of", "in_care_of"]),
   ("5.b.", ["5b", "5_b", "mailing_street", "street_address"]),
   ("5.c.", ["5c", "5_c", "mailing_apt", "apt", "suite", "floor"]),
   ("5.d.", ["5d", "5_d", "mailing_city", "city"]),
   ("5.e.", ["5e", "5_e", "mailing_state", "state"]),
   ("5.f.", ["5f", "5_f", "mailing_zip", "zip_code", "zipcode"]),
   ("8.", ["8", "alien_number", "a_number", "a_number_8"]),
   ("9.", ["9", "uscis_account_number", "account_number"]),
   ("10.", ["10", "sex", "gender"]),
   ("11.", ["11", "marital_status"]),
   ("12.", ["12", "previously_filed_i765"]),
   ("13.a.", ["13a", "13_a", "ssa_issued_card"]),
   ("13.b.", ["13b", "13_b", "ssn_number", "ssn"]),
   ("14.", ["14", "want_ssa_card"]),
   ("15.", ["15", "consent_for_disclosure"]),
   ("20.", ["20", "date_of_birth", "dob", "birth_date"]),
   ("21.a.", ["21a", "21_a", "i94_number", "i94"]),
   ("27.", ["27", "eligibility_category", "category"])]

/-- One pattern test of `buildFieldNameMapping` (lines 165-167);
`fieldNameLower` is the document field name already lower-cased. -/
def patternHits (fieldNameLower : String) (pattern : String) : Bool :=
  strContains fieldNameLower (strLower pattern) ||
  fieldNameLower == strLower pattern ||
  stripNonAlnum fieldNameLower == strLower (stripNonAlnum pattern)

/-- `PDFProcessor.buildFieldNameMapping(form)` (lines 121-178): for each
item number, scan every document field against each alias pattern,
recording the first hit only (`if (!mapping.has(itemNumber))`). -/
def buildFieldNameMapping (d : PdfDoc) : List (String × String) :=
  fieldPatterns.foldl (fun mapping entry =>
    d.fields.foldl (fun mapping field =>
      let fieldName := strLower field.name
      entry.2.foldl (fun mapping pattern =>
        if patternHits fieldName pattern then
          if (FieldMapper.assocGet mapping entry.1).isNone
          then mapping ++ [(entry.1, field.name)]
          else mapping
        else mapping) mapping) mapping) []

/-- The six name variations tried for one resolved field
(lines 229-236). -/
def nameVariations (mapping : List (String × String)) (pdfFieldName : String) :
    List String :=
  [(FieldMapper.assocGet mapping pdfFieldName).getD pdfFieldName,
   pdfFieldName,
   dotsToUnderscores pdfFieldName,
   dotsRemoved pdfFieldName,
   strLower pdfFieldName,
   strUpper pdfFieldName]

/-- The variation loop (lines 238-274): for each candidate name, try a
text-field write, then a checkbox write, else move on.  Returns the
updated document, the name that matched and the filled kind. -/
def tryVariations (d : PdfDoc) (value : JsVal) :
    List String → Option (PdfDoc × String × String)
  | [] => none
  | n :: rest =>
    match findTextField d n with
    | some _ => some (setTextField d n (strOfValue value), n, "text")
    | none =>
      match findCheckBox d n with
      | some _ => some (setCheckBoxField d n (checkboxCondLong value), n, "checkbox")
      | none => tryVariations d value rest

/-- The fuzzy-match candidate search (lines 278-284) over the document's
field names. -/
def fuzzyFind (allFieldNames : List String) (pdfFieldName : String) : Option String :=
  allFieldNames.find? fun name =>
    strContains (strLower name) (strLower pdfFieldName) ||
    strContains (strLower pdfFieldName) (strLower name) ||
    stripNonAlnum (strLower name) == stripNonAlnum (strLower pdfFieldName)

/-- Record of one successfully filled field (`filledFields` entries). -/
structure FilledRec where
  fieldId : String
  pdfFieldName : String
  kind : String
  value : JsVal
  fuzzyMatched : Bool

/-- Record of one failed field (`failedFields` entries). -/
structure FailedRec where
  fieldId : String
  pdfFieldName : String
  value : JsVal

/-- The fill state threaded through `fillForm`'s loop: the working
document and the two report lists. -/
structure FillState where
  doc : PdfDoc
  filled : List FilledRec
  failed : List FailedRec

/-- The body of `fillForm`'s per-entry loop (lines 215-319): skip
entries with no `pdfFieldName`; try the six name variations; fall back
to fuzzy matching (text first, then checkbox with the short condition);
record a failure otherwise. -/
def processEntry (mapping : List (String × String)) (allFieldNames : List String)
    (st : FillState) (e : String × FieldMapper.ResolvedEntry) : FillState :=
  let fieldId := e.1
  let fd := e.2
  if fd.pdfFieldName = "" then st
  else
    let pdfFieldName := fd.pdfFieldName
    match tryVariations st.doc fd.value (nameVariations mapping pdfFieldName) with
    | some r =>
      ⟨r.1, st.filled ++ [⟨fieldId, r.2.1, r.2.2, fd.value, false⟩], st.failed⟩
    | none =>
      match fuzzyFind allFieldNames pdfFieldName with
      | some similarField =>
        match findTextField st.doc similarField with
        | some _ =>
          ⟨setTextField st.doc similarField (strOfValue fd.value),
           st.filled ++ [⟨fieldId, similarField, "text", fd.value, true⟩], st.failed⟩
        | none =>
          match findCheckBox st.doc similarField with
          | some _ =>
            ⟨setCheckBoxField st.doc similarField (checkboxCondShort fd.value),
             st.filled ++ [⟨fieldId, similarField, "checkbox", fd.value, true⟩], st.failed⟩
          | none => ⟨st.doc, st.filled, st.failed ++ [⟨fieldId, pdfFieldName, fd.value⟩]⟩
      | none => ⟨st.doc, st.filled, st.failed ++ [⟨fieldId, pdfFieldName, fd.value⟩]⟩

/-- The whole field-filling loop over the `formData` entries. -/
def fillFields (mapping : List (String × String)) (allFieldNames : List String)
    (entries : List (String × FieldMapper.ResolvedEntry)) (st : FillState) : FillState :=
  entries.foldl (processEntry mapping allFieldNames) st

/-- Processor state: the cached template document, `null` until
`loadTemplate` succeeds. -/
structure State where
  templatePDF : Option PdfBytes := none

/-- `PDFProcessor.loadTemplate(src)` after a successful fetch/load of
the template bytes. -/
def loadTemplate (_ : State) (bytes : PdfBytes) : State :=
  ⟨some bytes⟩

/-- `PDFProcessor.fillForm(formData, options)` (lines 186-345): a hard
error if no template is loaded; otherwise the template is cloned by
load-of-save and the clone alone is filled and serialized.  Returns the
output bytes, the two report lists and the processor state after the
call — `fillForm` never assigns `this.templatePDF`, so that state is
the input state.  The signature block (line 328) is a no-op in the
source. -/
def fillForm (p : State) (formData : List (String × FieldMapper.ResolvedEntry))
    (flatten : Bool) : Except String (PdfBytes × List FilledRec × List FailedRec × State) :=
  match p.templatePDF with
  | none => .error "PDF template not loaded"
  | some tpl =>
    let pdfDoc := loadPdf (savePdf (loadPdf tpl))
    let mapping := buildFieldNameMapping pdfDoc
    let allFieldNames := pdfDoc.fields.map (fun f => f.name)
    let st := fillFields mapping allFieldNames formData ⟨pdfDoc, [], []⟩
    let finalDoc := if flatten then flattenDoc st.doc else st.doc
    .ok (savePdf finalDoc, st.filled, st.failed, p)

/-- `PDFProcessor.getFormFieldNames()` (lines 475-488): a hard error
without a template, else the template's field names. -/
def getFormFieldNames (p : State) : Except String (List String) :=
  match p.templatePDF with
  | none => .error "PDF template not loaded"
  | some tpl => .ok ((loadPdf tpl).fields.map (fun f => f.name))

end PDFProcessor

/-! ## Basic lemmas about the JS primitives -/

theorem objGet_objSet (fs : List (String × JsVal)) (k : String) (v : JsVal) :
    objGet (objSet fs k v) k = v := by
  induction fs with
  | nil => simp [objGet, objSet]
  | cons kv rest ih =>
    by_cases h : kv.1 = k
    · simp [objSet, h, objGet]
    · simp [objSet, h, objGet, ih]

theorem arrGet_arrSet (i : Nat) (v : JsVal) :
    ∀ xs : List JsVal, arrGet (arrSet xs i v) i = v := by
  induction i with
  | zero =>
    intro xs
    cases xs <;> simp [arrSet, arrGet]
  | succ i ih =>
    intro xs
    cases xs with
    | nil => simpa [arrSet, arrGet] using ih []
    | cons x rest => simpa [arrSet, arrGet] using ih rest

theorem jsTruthy_of_isObj (v : JsVal) (h : v.isObj = true) : jsTruthy v = true := by
  cases v <;> simp_all [JsVal.isObj, jsTruthy]

theorem jsTruthy_of_isArr (v : JsVal) (h : v.isArr = true) : jsTruthy v = true := by
  cases v <;> simp_all [JsVal.isArr, jsTruthy]

namespace FieldMapper

theorem jsTruthy_of_pathFits (cur : JsVal) (inter : List String) (last : String)
    (h : pathFits cur inter last = true) : jsTruthy cur = true := by
  cases inter with
  | nil =>
    by_cases hd : isDigits last = true
    · simp [pathFits, hd] at h
      exact jsTruthy_of_isArr cur h.1
    · simp [pathFits, hd] at h
      exact jsTruthy_of_isObj cur h
  | cons p rest =>
    by_cases hd : isDigits p = true <;>
      cases cur <;> simp_all [pathFits, jsTruthy]


end FieldMapper

namespace FieldMapper

theorem setParts_getParts (v : JsVal) :
    ∀ (inter : List String) (cur : JsVal) (last : String),
    pathFits cur inter last = true →
    ∃ cur', setNestedParts cur inter last v = some cur' ∧
      (cur'.isObj || cur'.isArr) = true ∧
      getNestedParts cur' (inter ++ [last]) = v := by
  intro inter
  induction inter with
  | nil =>
    intro cur last hfit
    by_cases hd : isDigits last = true
    · simp only [pathFits, hd, if_pos, Bool.and_eq_true, decide_eq_true_eq] at hfit
      obtain ⟨harr, hcanon⟩ := hfit
      cases cur with
      | arr xs =>
        refine ⟨.arr (arrSet xs (segToNat last) v), ?_, ?_, ?_⟩
        · simp only [setNestedParts]
          rw [if_pos ⟨hd, hcanon⟩]
        · simp [JsVal.isObj, JsVal.isArr]
        · simp only [List.nil_append, getNestedParts, JsVal.isNullOrUndef, hd]
          rw [arrGet_arrSet]
          cases v <;> simp [JsVal.isUndef, getNestedParts]
      | undef => simp [JsVal.isArr] at harr
      | null => simp [JsVal.isArr] at harr
      | bool b => simp [JsVal.isArr] at harr
      | str s => simp [JsVal.isArr] at harr
      | num n => simp [JsVal.isArr] at harr
      | obj fs => simp [JsVal.isArr] at harr
    · simp only [pathFits, hd, if_neg] at hfit
      cases cur with
      | obj fs =>
        refine ⟨.obj (objSet fs last v), ?_, ?_, ?_⟩
        · simp [setNestedParts]
        · simp [JsVal.isObj, JsVal.isArr]
        · have hdd : isDigits last = false := by simpa using hd
          simp only [List.nil_append, getNestedParts, JsVal.isNullOrUndef, hdd]
          simp [jsGetProp, objGet_objSet, getNestedParts]
      | undef => simp [JsVal.isObj] at hfit
      | null => simp [JsVal.isObj] at hfit
      | bool b => simp [JsVal.isObj] at hfit
      | str s => simp [JsVal.isObj] at hfit
      | num n => simp [JsVal.isObj] at hfit
      | arr xs => simp [JsVal.isObj] at hfit
  | cons p rest ih =>
    intro cur last hfit
    by_cases hd : isDigits p = true
    · cases cur with
      | arr xs =>
        simp only [pathFits, hd, if_pos] at hfit
        obtain ⟨sub, hset, hsub, hget⟩ :=
          ih (if jsTruthy (arrGet xs (segToNat p)) then arrGet xs (segToNat p) else .obj [])
            last hfit
        refine ⟨.arr (arrSet xs (segToNat p) sub), ?_, ?_, ?_⟩
        · simp only [setNestedParts, hd, if_pos]
          rw [hset]
        · simp [JsVal.isObj, JsVal.isArr]
        · have hsubU : sub.isUndef = false := by
            cases sub <;> simp_all [JsVal.isObj, JsVal.isArr, JsVal.isUndef]
          simp only [List.cons_append, getNestedParts, JsVal.isNullOrUndef, hd]
          rw [arrGet_arrSet]
          simp [hsubU, hget]
      | undef => simp [pathFits, hd] at hfit
      | null => simp [pathFits, hd] at hfit
      | bool b => simp [pathFits, hd] at hfit
      | str s => simp [pathFits, hd] at hfit
      | num n => simp [pathFits, hd] at hfit
      | obj fs => simp [pathFits, hd] at hfit
    · cases cur with
      | obj fs =>
        have hdd : isDigits p = false := by simpa using hd
        simp only [pathFits, hdd, Bool.false_eq_true, if_neg] at hfit
        obtain ⟨sub, hset, hsub, hget⟩ :=
          ih (if jsTruthy (objGet fs p) ∧ (objGet fs p).isObjectType = true
              then objGet fs p else .obj []) last (by simpa using hfit)
        refine ⟨.obj (objSet fs p sub), ?_, ?_, ?_⟩
        · simp only [setNestedParts, hdd, Bool.false_eq_true, if_false]
          rw [hset]
        · simp [JsVal.isObj, JsVal.isArr]
        · simp only [List.cons_append, getNestedParts, JsVal.isNullOrUndef, hdd,
            Bool.false_eq_true, if_false]
          simp only [jsGetProp, objGet_objSet]
          cases sub <;> simp_all [JsVal.isObj, JsVal.isArr, getNestedParts]
      | undef => simp [pathFits, hd] at hfit
      | null => simp [pathFits, hd] at hfit
      | bool b => simp [pathFits, hd] at hfit
      | str s => simp [pathFits, hd] at hfit
      | num n => simp [pathFits, hd] at hfit
      | arr xs => simp [pathFits, hd] at hfit

end FieldMapper

namespace FieldMapper

theorem setNestedValue_getNestedValue (o v : JsVal) (path : String)
    (inter : List String) (last : String)
    (hsplit : pathParts path = inter ++ [last])
    (hpath : path ≠ "")
    (hfit : pathFits o inter last = true) :
    ∃ o', setNestedValue o path v = some o' ∧ getNestedValue o' path = v := by
  have htr : jsTruthy o = true := jsTruthy_of_pathFits o inter last hfit
  obtain ⟨o', hset, ho', hget⟩ := setParts_getParts v inter o last hfit
  refine ⟨o', ?_, ?_⟩
  · simp only [setNestedValue, hpath, htr]
    simp only [hsplit, List.dropLast_concat, List.getLastD_concat]
    simpa using hset
  · have htr' : jsTruthy o' = true := by
      cases o' <;> simp_all [JsVal.isObj, JsVal.isArr, jsTruthy]
    simp only [getNestedValue, hpath, htr']
    simp only [hsplit]
    simpa using hget

end FieldMapper

/-! ## Claim C2 -/

/-- C2 counterexample: the write-then-read part of the claim fails.
Writing `7` at path `a.1` into `{}` stores it under the string key
`"1"` of a plain object (the final digit segment is a keyed store when
the container is not an array), and `getNestedValue` — which resolves a
digit segment only against an array — then reads `undefined`, not the
value just written. -/
theorem c2_counterexample :
    FieldMapper.setNestedValue (.obj []) "a.1" (.num 7) =
      some (.obj [("a", .obj [("1", .num 7)])]) ∧
    FieldMapper.getNestedValue (.obj [("a", .obj [("1", .num 7)])]) "a.1" = .undef ∧
    JsVal.undef ≠ JsVal.num 7 := by
  refine ⟨by rfl, by rfl, by simp⟩

/-- C2 (amended): a digit segment is resolved by `getNestedValue` only
as a numeric index into an array — on a keyed object it yields
`undefined` even when a matching key exists; on an array it yields the
indexed element.  Missing intermediate containers on read yield
`undefined` rather than an error.  `setNestedValue` stores a canonical
digit final segment as a numeric index when the container is an array.
Read-after-write returns the value just written provided every segment
of the path meets (or has created for it) a container of the matching
kind: an array at each digit segment — written canonically — and a
keyed object elsewhere (`pathFits`); without that alignment the write
can land on an object key that the numeric read never sees, as the
counterexample shows. -/
theorem c2_path_resolution
    (fs : List (String × JsVal)) (xs : List JsVal)
    (p q r : String) (restp restq : List String)
    (o v : JsVal) (path : String) (inter : List String) (last : String)
    (hp : isDigits p = true)
    (hq : isDigits q = false)
    (hmiss : jsGetProp (.obj fs) q = .undef)
    (hcanon : p = natToDec (segToNat p))
    (hsplit : pathParts path = inter ++ [last])
    (hpath : path ≠ "")
    (hfit : FieldMapper.pathFits o inter last = true) :
    FieldMapper.getNestedParts (.obj fs) (p :: restp) = .undef ∧
    FieldMapper.getNestedParts (.arr xs) [p] = arrGet xs (segToNat p) ∧
    FieldMapper.getNestedParts (.obj fs) (q :: r :: restq) = .undef ∧
    FieldMapper.setNestedParts (.arr xs) [] p v =
      some (.arr (arrSet xs (segToNat p) v)) ∧
    (∃ o', FieldMapper.setNestedValue o path v = some o' ∧
      FieldMapper.getNestedValue o' path = v) := by
  refine ⟨?_, ?_, ?_, ?_, ?_⟩
  · simp [FieldMapper.getNestedParts, hp, JsVal.isNullOrUndef]
  · simp only [FieldMapper.getNestedParts, JsVal.isNullOrUndef, hp]
    cases hx : arrGet xs (segToNat p) <;>
      simp [JsVal.isUndef, FieldMapper.getNestedParts]
  · have hqq : isDigits q = false := hq
    simp only [FieldMapper.getNestedParts, JsVal.isNullOrUndef, hqq,
      Bool.false_eq_true, if_false, hmiss]
    simp [FieldMapper.getNestedParts, JsVal.isNullOrUndef]
  · simp only [FieldMapper.setNestedParts]
    rw [if_pos ⟨hp, hcanon⟩]
  · exact FieldMapper.setNestedValue_getNestedValue o v path inter last hsplit hpath hfit

/-- C2 witness: the amended statement at concrete inputs — a digit
segment against the object `{"1": 9}` reads `undefined`, against the
array `[5]` reads `5`, a missing intermediate reads `undefined`, an
array write at a digit segment is an index store, and writing then
reading at path `a` on `{}` returns the written value. -/
theorem c2_path_resolution_witness :
    FieldMapper.getNestedParts (.obj [("1", .num 9)]) ["1"] = .undef ∧
    FieldMapper.getNestedParts (.arr [.num 5]) ["0"] = arrGet [.num 5] (segToNat "0") ∧
    FieldMapper.getNestedParts (.obj [("1", .num 9)]) ["b", "c"] = .undef ∧
    FieldMapper.setNestedParts (.arr [.num 5]) [] "0" (.num 3) =
      some (.arr (arrSet [.num 5] (segToNat "0") (.num 3))) ∧
    (∃ o', FieldMapper.setNestedValue (.obj []) "a" (.num 3) = some o' ∧
      FieldMapper.getNestedValue o' "a" = .num 3) := by
  have h := c2_path_resolution [("1", .num 9)] [.num 5] "0" "b" "c" [] []
    (.obj []) (.num 3) "a" [] "a"
    (by rfl) (by rfl) (by rfl) (by rfl) (by rfl) (by simp) (by rfl)
  exact ⟨by rfl, h.2.1, h.2.2.1, h.2.2.2.1, h.2.2.2.2⟩

/-! ## Claim C5 -/

/-- C5: `applyValueMapping` translates boolean `true` through the
mapping's explicit `checked` key when present; any other value whose
string key has an exact match in the mapping is translated to the
mapped value; a value with no match passes through unchanged; and on
the mapping `{ "H-1B": "h1b_code", checked: "X" }` the value `true`
yields `"X"` while the unmapped `"other"` is returned unchanged. -/
theorem c5_applyValueMapping (mapping : List (String × JsVal)) (v u : JsVal)
    (hv1 : v.eqBool true = false)
    (hv2 : (objGet mapping (jsToString v)).isUndef = false)
    (hu1 : u.eqBool true = false)
    (hu2 : (objGet mapping (jsToString u)).isUndef = true) :
    ((objGet mapping "checked").isUndef = false →
      FieldMapper.applyValueMapping (.bool true) mapping = objGet mapping "checked") ∧
    FieldMapper.applyValueMapping v mapping = objGet mapping (jsToString v) ∧
    FieldMapper.applyValueMapping u mapping = u ∧
    FieldMapper.applyValueMapping (.bool true)
      [("H-1B", .str "h1b_code"), ("checked", .str "X")] = .str "X" ∧
    FieldMapper.applyValueMapping (.str "other")
      [("H-1B", .str "h1b_code"), ("checked", .str "X")] = .str "other" := by
  refine ⟨?_, ?_, ?_, by rfl, by rfl⟩
  · intro h
    simp [FieldMapper.applyValueMapping, h, JsVal.eqBool]
  · simp [FieldMapper.applyValueMapping, hv1, hv2]
  · simp [FieldMapper.applyValueMapping, hu1, hu2]

/-- C5 witness: the hypotheses hold for the example mapping with the
mapped value `"H-1B"` and the unmapped value `"other"`. -/
theorem c5_applyValueMapping_witness :
    ((objGet [("H-1B", JsVal.str "h1b_code"), ("checked", JsVal.str "X")]
        "checked").isUndef = false →
      FieldMapper.applyValueMapping (.bool true)
        [("H-1B", .str "h1b_code"), ("checked", .str "X")] =
        objGet [("H-1B", JsVal.str "h1b_code"), ("checked", JsVal.str "X")] "checked") ∧
    FieldMapper.applyValueMapping (.str "H-1B")
      [("H-1B", .str "h1b_code"), ("checked", .str "X")] =
      objGet [("H-1B", JsVal.str "h1b_code"), ("checked", JsVal.str "X")]
        (jsToString (.str "H-1B")) ∧
    FieldMapper.applyValueMapping (.str "other")
      [("H-1B", .str "h1b_code"), ("checked", .str "X")] = .str "other" ∧
    FieldMapper.applyValueMapping (.bool true)
      [("H-1B", .str "h1b_code"), ("checked", .str "X")] = .str "X" ∧
    FieldMapper.applyValueMapping (.str "other")
      [("H-1B", .str "h1b_code"), ("checked", .str "X")] = .str "other" := by
  have h := c5_applyValueMapping
    [("H-1B", .str "h1b_code"), ("checked", .str "X")]
    (.str "H-1B") (.str "other") (by rfl) (by rfl) (by rfl) (by rfl)
  exact ⟨h.1, h.2.1, h.2.2.1, h.2.2.2.1, h.2.2.2.2⟩

/-! ## Claim C10 -/

/-- C10: on any `eligibilityInfo` record of the shape the
`ApplicantProfile` constructor builds — where the prior-denial flags
live under `workAuthorization` — `validateEligibility` produces exactly
the category and application-purpose errors: the prior-denial branch
reads the top-level keys `previouslyDeniedEAD`/`previouslyRevokedEAD`,
which are absent on such records, so it never contributes an error, and
the result depends only on `category` and `applicationPurpose`. -/
theorem c10_validateEligibility
    (category categoryDescription daca asylumAdjudication refugeeStatus
      specialImmigrantStatus family employment other otherDescription
      neverBeenGrantedEAD previouslyDeniedEAD previouslyRevokedEAD
      invalidatingFactors hasConverterion convictionDetails
      applicationPurpose requestedCategory isEligible : JsVal) :
    (ApplicantProfile.validateEligibility
      (ApplicantProfile.mkEligibilityInfo category categoryDescription
        daca asylumAdjudication refugeeStatus specialImmigrantStatus
        family employment other otherDescription
        neverBeenGrantedEAD previouslyDeniedEAD previouslyRevokedEAD
        invalidatingFactors hasConverterion convictionDetails
        applicationPurpose requestedCategory isEligible)).errors =
      (if ¬jsTruthy category then ["EAD category is required"] else []) ++
      (if ¬jsTruthy applicationPurpose then ["Application purpose is required"] else []) := by
  simp +decide [ApplicantProfile.validateEligibility,
    ApplicantProfile.mkEligibilityInfo, jsGetProp, objGet, jsTruthy]

/-! ## Claim C8 -/

/-- C8: `fillForm` and `getFormFieldNames` raise an error to the caller
when no template document has been loaded; the failure is scoped to the
call — the processor state is a value that the failing call leaves
untouched — and after a template is loaded both operations succeed. -/
theorem c8_missing_template (p : PDFProcessor.State)
    (formData : List (String × FieldMapper.ResolvedEntry)) (flatten : Bool)
    (bytes : PDFProcessor.PdfBytes)
    (h : p.templatePDF = none) :
    PDFProcessor.fillForm p formData flatten = .error "PDF template not loaded" ∧
    PDFProcessor.getFormFieldNames p = .error "PDF template not loaded" ∧
    PDFProcessor.getFormFieldNames (PDFProcessor.loadTemplate p bytes) =
      .ok ((PDFProcessor.loadPdf bytes).fields.map (fun f => f.name)) ∧
    (∃ r, PDFProcessor.fillForm (PDFProcessor.loadTemplate p bytes) formData flatten =
      .ok r) := by
  refine ⟨?_, ?_, ?_, ?_⟩
  · simp [PDFProcessor.fillForm, h]
  · simp [PDFProcessor.getFormFieldNames, h]
  · simp [PDFProcessor.getFormFieldNames, PDFProcessor.loadTemplate]
  · exact ⟨_, rfl⟩

/-- C8 witness: the statement at a fresh processor with an empty
template document and empty form data. -/
theorem c8_missing_template_witness :
    PDFProcessor.fillForm ⟨none⟩ [] false = .error "PDF template not loaded" ∧
    PDFProcessor.getFormFieldNames (⟨none⟩ : PDFProcessor.State) =
      .error "PDF template not loaded" ∧
    PDFProcessor.getFormFieldNames (PDFProcessor.loadTemplate ⟨none⟩ ⟨⟨[]⟩⟩) =
      .ok ((PDFProcessor.loadPdf ⟨⟨[]⟩⟩).fields.map (fun f => f.name)) ∧
    (∃ r, PDFProcessor.fillForm (PDFProcessor.loadTemplate ⟨none⟩ ⟨⟨[]⟩⟩) [] false =
      .ok r) :=
  c8_missing_template ⟨none⟩ [] false ⟨⟨[]⟩⟩ rfl

/-! ## Claim C9 -/

/-- C9: `fillForm` operates on a clone obtained by re-loading the saved
template bytes and never assigns the cached template, so the processor
state after a successful fill is exactly the state before it — the
cached template bytes are identical across any number of fills. -/
theorem c9_template_not_mutated (p : PDFProcessor.State)
    (formData : List (String × FieldMapper.ResolvedEntry)) (flatten : Bool)
    (out : PDFProcessor.PdfBytes) (filled : List PDFProcessor.FilledRec)
    (failed : List PDFProcessor.FailedRec) (p' : PDFProcessor.State)
    (h : PDFProcessor.fillForm p formData flatten = .ok (out, filled, failed, p')) :
    p' = p ∧ p'.templatePDF = p.templatePDF := by
  obtain ⟨tm⟩ := p
  cases tm with
  | none => simp [PDFProcessor.fillForm] at h
  | some tpl =>
    simp only [PDFProcessor.fillForm] at h
    have h4 := Except.ok.inj h
    have hp' : p' = ⟨some tpl⟩ := (congrArg (fun q => q.2.2.2) h4).symm
    subst hp'
    exact ⟨rfl, rfl⟩

/-- C9 witness: a concrete fill on a one-checkbox template returns the
processor state unchanged. -/
theorem c9_template_not_mutated_witness :
    (⟨some ⟨⟨[⟨"cb1", .checkbox false⟩]⟩⟩⟩ : PDFProcessor.State) =
      (⟨some ⟨⟨[⟨"cb1", .checkbox false⟩]⟩⟩⟩ : PDFProcessor.State) ∧
    (⟨some ⟨⟨[⟨"cb1", .checkbox false⟩]⟩⟩⟩ : PDFProcessor.State).templatePDF =
      (⟨some ⟨⟨[⟨"cb1", .checkbox false⟩]⟩⟩⟩ : PDFProcessor.State).templatePDF := by
  exact c9_template_not_mutated ⟨some ⟨⟨[⟨"cb1", .checkbox false⟩]⟩⟩⟩ [] false
    ⟨⟨[⟨"cb1", .checkbox false⟩]⟩⟩ [] [] ⟨some ⟨⟨[⟨"cb1", .checkbox false⟩]⟩⟩⟩ (by rfl)

/-! ## Claim C7 -/

/-- C7: a resolved field whose declared PDF name matches no alias-table
entry, no name variant and no fuzzy candidate is recorded in the
failed-fields list and skipped — the document and the filled list are
untouched — and the loop then processes the remaining fields from that
same state: no single field's resolution failure aborts the fill. -/
theorem c7_failed_field_skipped (mapping : List (String × String))
    (allFieldNames : List String) (st : PDFProcessor.FillState)
    (fieldId : String) (fd : FieldMapper.ResolvedEntry)
    (rest : List (String × FieldMapper.ResolvedEntry))
    (hname : fd.pdfFieldName ≠ "")
    (hvar : PDFProcessor.tryVariations st.doc fd.value
      (PDFProcessor.nameVariations mapping fd.pdfFieldName) = none)
    (hfuzzy : PDFProcessor.fuzzyFind allFieldNames fd.pdfFieldName = none) :
    PDFProcessor.processEntry mapping allFieldNames st (fieldId, fd) =
      ⟨st.doc, st.filled, st.failed ++ [⟨fieldId, fd.pdfFieldName, fd.value⟩]⟩ ∧
    PDFProcessor.fillFields mapping allFieldNames ((fieldId, fd) :: rest) st =
      PDFProcessor.fillFields mapping allFieldNames rest
        ⟨st.doc, st.filled, st.failed ++ [⟨fieldId, fd.pdfFieldName, fd.value⟩]⟩ := by
  have h1 : PDFProcessor.processEntry mapping allFieldNames st (fieldId, fd) =
      ⟨st.doc, st.filled, st.failed ++ [⟨fieldId, fd.pdfFieldName, fd.value⟩]⟩ := by
    simp [PDFProcessor.processEntry, hname, hvar, hfuzzy]
  refine ⟨h1, ?_⟩
  show (((fieldId, fd) :: rest).foldl (PDFProcessor.processEntry mapping allFieldNames) st) = _
  rw [List.foldl_cons, h1]
  rfl

/-- C7 witness: a field declared as `zzz` against an empty document is
recorded as failed and the loop continues (here with no remaining
fields). -/
theorem c7_failed_field_skipped_witness :
    PDFProcessor.processEntry [] [] ⟨⟨[]⟩, [], []⟩
      ("f1", ⟨.str "v", "zzz", ⟨none, none, none, none, none, none⟩, .str "v"⟩) =
      ⟨⟨[]⟩, [], [] ++ [⟨"f1", "zzz", .str "v"⟩]⟩ ∧
    PDFProcessor.fillFields [] []
      [("f1", ⟨.str "v", "zzz", ⟨none, none, none, none, none, none⟩, .str "v"⟩)]
      ⟨⟨[]⟩, [], []⟩ =
      PDFProcessor.fillFields [] [] [] ⟨⟨[]⟩, [], [] ++ [⟨"f1", "zzz", .str "v"⟩]⟩ := by
  exact c7_failed_field_skipped [] [] ⟨⟨[]⟩, [], []⟩ "f1"
    ⟨.str "v", "zzz", ⟨none, none, none, none, none, none⟩, .str "v"⟩ []
    (by simp) (by rfl) (by rfl)

/-! ## Claim C4 -/

/-- C4 counterexample: on the fuzzy-match fallback the domain tokens
`initial`/`replacement`/`renewal` do not check the box.  A checkbox
named `xzzfieldx`, reached only by fuzzy matching from the declared
name `zzfield`, is filled from the value `"initial"` — a token of the
claim's check set — yet ends up unchecked (here it even starts checked
and is actively unchecked). -/
theorem c4_counterexample :
    PDFProcessor.fillForm ⟨some ⟨⟨[⟨"xzzfieldx", .checkbox true⟩]⟩⟩⟩
      [("f1", ⟨.str "initial", "zzfield", ⟨none, none, none, none, none, none⟩,
        .str "initial"⟩)] false =
      .ok (⟨⟨[⟨"xzzfieldx", .checkbox false⟩]⟩⟩,
        [⟨"f1", "xzzfieldx", "checkbox", .str "initial", true⟩], [],
        ⟨some ⟨⟨[⟨"xzzfieldx", .checkbox true⟩]⟩⟩⟩) ∧
    PDFProcessor.checkboxCondLong (.str "initial") = true := by
  exact ⟨by rfl, by rfl⟩

/-- C4 (amended): a checkbox resolved through the name-variation path
is checked exactly when the value is boolean `true`, the mark `X`, or
one of `checked`, `Yes`, `initial`, `replacement`, `renewal`; a
checkbox resolved through the fuzzy-match fallback is checked exactly
when the value is boolean `true`, `X`, `checked` or `Yes` — the three
reason-for-applying tokens uncheck there.  Any other value unchecks on
both paths. -/
theorem c4_checkbox_semantics (doc : PDFProcessor.PdfDoc) (n : String)
    (rest : List String) (v w : JsVal) (cb cb2 : PDFProcessor.PdfField)
    (mapping : List (String × String)) (allFieldNames : List String)
    (st : PDFProcessor.FillState) (fieldId similar : String)
    (fd : FieldMapper.ResolvedEntry)
    (hT : PDFProcessor.findTextField doc n = none)
    (hC : PDFProcessor.findCheckBox doc n = some cb)
    (hname : fd.pdfFieldName ≠ "")
    (hvar : PDFProcessor.tryVariations st.doc fd.value
      (PDFProcessor.nameVariations mapping fd.pdfFieldName) = none)
    (hfz : PDFProcessor.fuzzyFind allFieldNames fd.pdfFieldName = some similar)
    (hT2 : PDFProcessor.findTextField st.doc similar = none)
    (hC2 : PDFProcessor.findCheckBox st.doc similar = some cb2) :
    PDFProcessor.tryVariations doc v (n :: rest) =
      some (PDFProcessor.setCheckBoxField doc n (PDFProcessor.checkboxCondLong v),
        n, "checkbox") ∧
    (PDFProcessor.checkboxCondLong v = true ↔
      v = .bool true ∨ v = .str "X" ∨ v = .str "checked" ∨ v = .str "Yes" ∨
      v = .str "initial" ∨ v = .str "replacement" ∨ v = .str "renewal") ∧
    PDFProcessor.processEntry mapping allFieldNames st (fieldId, fd) =
      ⟨PDFProcessor.setCheckBoxField st.doc similar
        (PDFProcessor.checkboxCondShort fd.value),
       st.filled ++ [⟨fieldId, similar, "checkbox", fd.value, true⟩], st.failed⟩ ∧
    (PDFProcessor.checkboxCondShort w = true ↔
      w = .bool true ∨ w = .str "X" ∨ w = .str "checked" ∨ w = .str "Yes") := by
  refine ⟨?_, ?_, ?_, ?_⟩
  · simp [PDFProcessor.tryVariations, hT, hC]
  · cases v <;>
      simp [PDFProcessor.checkboxCondLong, JsVal.eqBool, JsVal.eqStr]
  · simp [PDFProcessor.processEntry, hname, hvar, hfz, hT2, hC2]
  · cases w <;>
      simp [PDFProcessor.checkboxCondShort, JsVal.eqBool, JsVal.eqStr]

/-- C4 witness: the amended statement at a direct-hit checkbox `cb1`
filled from `"renewal"` (checked on the variation path) and the
fuzzy-matched checkbox `xzzfieldx` filled from `"initial"` (left to the
short condition, hence unchecked). -/
theorem c4_checkbox_semantics_witness :
    PDFProcessor.tryVariations ⟨[⟨"cb1", .checkbox false⟩]⟩ (.str "renewal") ["cb1"] =
      some (PDFProcessor.setCheckBoxField ⟨[⟨"cb1", .checkbox false⟩]⟩ "cb1"
        (PDFProcessor.checkboxCondLong (.str "renewal")), "cb1", "checkbox") ∧
    (PDFProcessor.checkboxCondLong (.str "renewal") = true ↔
      JsVal.str "renewal" = .bool true ∨ JsVal.str "renewal" = .str "X" ∨
      JsVal.str "renewal" = .str "checked" ∨ JsVal.str "renewal" = .str "Yes" ∨
      JsVal.str "renewal" = .str "initial" ∨ JsVal.str "renewal" = .str "replacement" ∨
      JsVal.str "renewal" = .str "renewal") ∧
    PDFProcessor.processEntry [] ["xzzfieldx"] ⟨⟨[⟨"xzzfieldx", .checkbox true⟩]⟩, [], []⟩
      ("f1", ⟨.str "initial", "zzfield", ⟨none, none, none, none, none, none⟩,
        .str "initial"⟩) =
      ⟨PDFProcessor.setCheckBoxField ⟨[⟨"xzzfieldx", .checkbox true⟩]⟩ "xzzfieldx"
        (PDFProcessor.checkboxCondShort (.str "initial")),
       [] ++ [⟨"f1", "xzzfieldx", "checkbox", .str "initial", true⟩], []⟩ ∧
    (PDFProcessor.checkboxCondShort (.str "helloworld") = true ↔
      JsVal.str "helloworld" = .bool true ∨ JsVal.str "helloworld" = .str "X" ∨
      JsVal.str "helloworld" = .str "checked" ∨ JsVal.str "helloworld" = .str "Yes") := by
  exact c4_checkbox_semantics ⟨[⟨"cb1", .checkbox false⟩]⟩ "cb1" []
    (.str "renewal") (.str "helloworld") ⟨"cb1", .checkbox false⟩
    ⟨"xzzfieldx", .checkbox true⟩
    [] ["xzzfieldx"] ⟨⟨[⟨"xzzfieldx", .checkbox true⟩]⟩, [], []⟩ "f1" "xzzfieldx"
    ⟨.str "initial", "zzfield", ⟨none, none, none, none, none, none⟩, .str "initial"⟩
    (by rfl) (by rfl) (by simp) (by rfl) (by rfl) (by rfl) (by rfl)

/-! ## Claim C6 -/

/-- A string matching `MM/DD/YYYY` cannot match `YYYY-MM-DD`: position 2
is a slash in the former and a digit in the latter. -/
theorem isMmDdYyyy_not_iso (s : String) (h : isMmDdYyyyStr s = true) :
    isIsoDateStr s = false := by
  simp only [isMmDdYyyyStr, Bool.and_eq_true, beq_iff_eq] at h
  have hslash : charAt s.data 2 = '/' := h.1.1.1.1.1.1.1.2
  simp +decide [isIsoDateStr, hslash]

/-- A string matching `MM/DD/YYYY` has ten characters, so it is not
empty. -/
theorem isMmDdYyyy_ne_empty (s : String) (h : isMmDdYyyyStr s = true) :
    s ≠ "" := by
  simp only [isMmDdYyyyStr, Bool.and_eq_true, beq_iff_eq] at h
  have hlen : s.data.length = 10 := h.1.1.1.1.1.1.1.1.1.1
  intro he
  rw [he] at hlen
  simp at hlen

/-- C6: `formatDate` maps the ISO string `2025-01-15` to `01/15/2025`;
applied to a string already in `MM/DD/YYYY` form it returns it
unchanged (idempotence on its own output format); and an unparseable
value — a string matching neither shape that the host date parser
rejects, or a non-string non-date value — formats to the empty string
rather than raising. -/
theorem c6_formatDate (hostParse hostParse2 : JsDateParse) (s t : String) (n : Int)
    (hs : isMmDdYyyyStr s = true)
    (ht1 : isIsoDateStr t = false) (ht2 : isMmDdYyyyStr t = false)
    (ht3 : hostParse2 t = none) :
    FieldMapper.formatDate hostParse (.str "2025-01-15") = "01/15/2025" ∧
    FieldMapper.formatDate hostParse (.str s) = s ∧
    FieldMapper.formatDate hostParse2 (.str t) = "" ∧
    FieldMapper.formatDate hostParse (.num n) = "" := by
  refine ⟨by rfl, ?_, ?_, ?_⟩
  · have hne : s ≠ "" := isMmDdYyyy_ne_empty s hs
    have hiso := isMmDdYyyy_not_iso s hs
    simp [FieldMapper.formatDate, jsTruthy, hne, hiso, hs]
  · by_cases hte : t = ""
    · simp [FieldMapper.formatDate, jsTruthy, hte]
    · simp [FieldMapper.formatDate, jsTruthy, hte, ht1, ht2, ht3]
  · by_cases hn : n = 0
    · simp [FieldMapper.formatDate, jsTruthy, hn]
    · simp [FieldMapper.formatDate, jsTruthy, hn]

/-- C6 witness: the statement at `01/15/2025` (already formatted), the
unparseable string `hello` with a host parser that rejects everything,
and the number `42`. -/
theorem c6_formatDate_witness :
    FieldMapper.formatDate (fun _ => none) (.str "2025-01-15") = "01/15/2025" ∧
    FieldMapper.formatDate (fun _ => none) (.str "01/15/2025") = "01/15/2025" ∧
    FieldMapper.formatDate (fun _ => none) (.str "hello") = "" ∧
    FieldMapper.formatDate (fun _ => none) (.num 42) = "" :=
  c6_formatDate (fun _ => none) (fun _ => none) "01/15/2025" "hello" 42
    (by rfl) (by rfl) (by rfl) (by rfl)

/-! ## Claim C3 -/

namespace FieldMapper

theorem assocGet_assocSet_self {α : Type} (l : List (String × α)) (k : String) (v : α) :
    assocGet (assocSet l k v) k = some v := by
  induction l with
  | nil => simp [assocGet, assocSet]
  | cons kv rest ih =>
    by_cases h : kv.1 = k
    · simp [assocSet, h, assocGet]
    · simp [assocSet, h, assocGet, ih]

theorem assocGet_assocSet_ne {α : Type} (l : List (String × α)) (k k' : String) (v : α)
    (h : k ≠ k') : assocGet (assocSet l k v) k' = assocGet l k' := by
  induction l with
  | nil => simp [assocGet, assocSet, h]
  | cons kv rest ih =>
    by_cases h2 : kv.1 = k
    · simp [assocSet, h2, assocGet, h]
    · simp [assocSet, h2, assocGet, ih]

theorem mapFieldStep_preserves (hostParse : JsDateParse) (profile : JsVal)
    (fd : List (String × ResolvedEntry)) (f : FieldDesc) (k : String)
    (h : (assocGet fd k).isSome = true) :
    (assocGet (mapFieldStep hostParse profile fd f) k).isSome = true := by
  unfold mapFieldStep
  split
  · exact h
  · split
    · by_cases hk : f.field_id.getD "" = k
      · rw [hk, assocGet_assocSet_self]
        rfl
      · rw [assocGet_assocSet_ne _ _ _ _ hk]
        exact h
    · exact h


theorem foldl_mapFieldStep_preserves (hostParse : JsDateParse) (profile : JsVal)
    (l : List FieldDesc) (init : List (String × ResolvedEntry)) (k : String)
    (h : (assocGet init k).isSome = true) :
    (assocGet (l.foldl (mapFieldStep hostParse profile) init) k).isSome = true := by
  induction l generalizing init with
  | nil => simpa using h
  | cons f l ih =>
    rw [List.foldl_cons]
    exact ih _ (mapFieldStep_preserves hostParse profile init f k h)

theorem shouldInclude_of_ty (value : JsVal) (f : FieldDesc)
    (hty : f.ty = some "Checkbox" ∨ f.ty = some "Radio") :
    shouldInclude value f = true := by
  rcases hty with h | h <;> simp [shouldInclude, h]

theorem shouldInclude_iff (v : JsVal) (f : FieldDesc) :
    shouldInclude v f = true ↔
      (NonEmptyVal v ∨ f.ty = some "Checkbox" ∨ f.ty = some "Radio") := by
  cases v <;>
    simp [shouldInclude, NonEmptyVal, JsVal.isUndef, JsVal.isNull, JsVal.eqStr,
      or_assoc]

theorem optTruthy_some (o : Option String) (h : optTruthy o = true) :
    o = some (o.getD "") ∧ o.getD "" ≠ "" := by
  cases o with
  | none => simp [optTruthy] at h
  | some s => simpa [optTruthy] using h

theorem foldl_mapFieldStep_mem (hostParse : JsDateParse) (profile : JsVal)
    (l : List FieldDesc) (init : List (String × ResolvedEntry)) (f : FieldDesc)
    (hf : f ∈ l)
    (hid : optTruthy f.field_id = true) (hpath : optTruthy f.data_path = true)
    (hty : f.ty = some "Checkbox" ∨ f.ty = some "Radio") :
    (assocGet (l.foldl (mapFieldStep hostParse profile) init)
      (f.field_id.getD "")).isSome = true := by
  induction l generalizing init with
  | nil => cases hf
  | cons g l ih =>
    rcases List.mem_cons.mp hf with rfl | hf'
    · rw [List.foldl_cons]
      apply foldl_mapFieldStep_preserves
      unfold mapFieldStep
      rw [if_neg (by simp [hid, hpath]),
        if_pos (shouldInclude_of_ty _ f hty), assocGet_assocSet_self]
      rfl
    · rw [List.foldl_cons]
      exact ih _ hf'

theorem foldl_mapFieldStep_provenance (hostParse : JsDateParse) (profile : JsVal)
    (l : List FieldDesc) (init : List (String × ResolvedEntry)) (k : String)
    (h : (assocGet (l.foldl (mapFieldStep hostParse profile) init) k).isSome = true) :
    (assocGet init k).isSome = true ∨
    ∃ f ∈ l, f.field_id = some k ∧ k ≠ "" ∧ optTruthy f.data_path = true ∧
      (NonEmptyVal (getNestedValue profile (f.data_path.getD "")) ∨
        f.ty = some "Checkbox" ∨ f.ty = some "Radio") := by
  induction l generalizing init with
  | nil => left; simpa using h
  | cons g l ih =>
    rw [List.foldl_cons] at h
    rcases ih _ h with hinit | ⟨f, hf, hrest⟩
    · by_cases hc : (¬optTruthy g.field_id = true ∨ ¬optTruthy g.data_path = true)
      · left
        unfold mapFieldStep at hinit
        rwa [if_pos hc] at hinit
      · push_neg at hc
        by_cases hs :
            shouldInclude (getNestedValue profile (g.data_path.getD "")) g = true
        · by_cases hk : g.field_id.getD "" = k
          · right
            obtain ⟨hgid, hgne⟩ := optTruthy_some g.field_id hc.1
            refine ⟨g, List.mem_cons_self g l, ?_, ?_, hc.2, ?_⟩
            · rw [hgid, hk]
            · rw [← hk]; exact hgne
            · exact (shouldInclude_iff _ g).mp hs
          · left
            unfold mapFieldStep at hinit
            rw [if_neg (by simp [hc.1, hc.2]), if_pos hs,
              assocGet_assocSet_ne _ _ _ _ hk] at hinit
            exact hinit
        · left
          unfold mapFieldStep at hinit
          rwa [if_neg (by simp [hc.1, hc.2]), if_neg hs] at hinit
    · right
      exact ⟨f, List.mem_cons_of_mem g hf, hrest⟩

theorem mapProfileToForm_parts_foldl (hostParse : JsDateParse) (profile : JsVal) :
    ∀ (parts : List Part) (init : List (String × ResolvedEntry)),
    parts.foldl (fun formData part =>
      match part.fields with
      | none => formData
      | some fields => fields.foldl (mapFieldStep hostParse profile) formData) init =
    ((parts.map (fun p => p.fields.getD [])).flatten).foldl
      (mapFieldStep hostParse profile) init := by
  intro parts
  induction parts with
  | nil => intro init; rfl
  | cons p ps ih =>
    intro init
    rw [List.foldl_cons, List.map_cons, List.flatten_cons, List.foldl_append]
    cases hp : p.fields with
    | none => simp [hp, ih]
    | some fields => simp [hp, ih]

theorem mapProfileToForm_eq_foldl (hostParse : JsDateParse) (c : Config)
    (profile : JsVal) :
    mapProfileToForm hostParse c profile =
      (configFields c).foldl (mapFieldStep hostParse profile) [] := by
  obtain ⟨pp⟩ := c
  cases pp with
  | none => rfl
  | some parts =>
    show parts.foldl _ [] = _
    simp only [configFields]
    exact mapProfileToForm_parts_foldl hostParse profile parts []

end FieldMapper

/-- C3: for every schema descriptor with a truthy `field_id` and
`data_path` whose type is Checkbox or Radio, the descriptor's id is a
key of `mapProfileToForm`'s output whatever the resolved profile value;
conversely every key of the output originates from a descriptor with
both properties set whose resolved value is non-empty or whose type is
Checkbox or Radio. -/
theorem c3_output_invariant (hostParse : JsDateParse)
    (c : FieldMapper.Config) (profile : JsVal)
    (parts : List FieldMapper.Part) (part : FieldMapper.Part)
    (fields : List FieldMapper.FieldDesc) (f : FieldMapper.FieldDesc)
    (k : String) (e : FieldMapper.ResolvedEntry)
    (hparts : c.parts = some parts) (hpart : part ∈ parts)
    (hfields : part.fields = some fields) (hf : f ∈ fields)
    (hid : FieldMapper.optTruthy f.field_id = true)
    (hpath : FieldMapper.optTruthy f.data_path = true)
    (hty : f.ty = some "Checkbox" ∨ f.ty = some "Radio")
    (hk : FieldMapper.assocGet (FieldMapper.mapProfileToForm hostParse c profile) k =
      some e) :
    (FieldMapper.assocGet (FieldMapper.mapProfileToForm hostParse c profile)
      (f.field_id.getD "")).isSome = true ∧
    ∃ part' ∈ parts, ∃ fields', part'.fields = some fields' ∧ ∃ f' ∈ fields',
      f'.field_id = some k ∧ k ≠ "" ∧ FieldMapper.optTruthy f'.data_path = true ∧
      (FieldMapper.NonEmptyVal
        (FieldMapper.getNestedValue profile (f'.data_path.getD "")) ∨
        f'.ty = some "Checkbox" ∨ f'.ty = some "Radio") := by
  have hflat := FieldMapper.mapProfileToForm_eq_foldl hostParse c profile
  have hmemflat : f ∈ FieldMapper.configFields c := by
    simp only [FieldMapper.configFields, hparts]
    refine List.mem_flatten.mpr ⟨fields, ?_, hf⟩
    refine List.mem_map.mpr ⟨part, hpart, ?_⟩
    rw [hfields]
    rfl
  constructor
  · rw [hflat]
    exact FieldMapper.foldl_mapFieldStep_mem hostParse profile _ [] f hmemflat
      hid hpath hty
  · have hk' : (FieldMapper.assocGet
        ((FieldMapper.configFields c).foldl
          (FieldMapper.mapFieldStep hostParse profile) []) k).isSome = true := by
      rw [← hflat, hk]
      rfl
    rcases FieldMapper.foldl_mapFieldStep_provenance hostParse profile _ [] k hk' with
      habs | ⟨f', hf', hrest⟩
    · simp [FieldMapper.assocGet] at habs
    · simp only [FieldMapper.configFields, hparts] at hf'
      obtain ⟨l, hl, hfl⟩ := List.mem_flatten.mp hf'
      obtain ⟨part', hpart', hpl⟩ := List.mem_map.mp hl
      cases hpf : part'.fields with
      | none =>
        rw [← hpl, hpf] at hfl
        simp at hfl
      | some fields' =>
        refine ⟨part', hpart', fields', hpf, f', ?_, hrest⟩
        rw [← hpl, hpf] at hfl
        simpa using hfl

/-- C3 witness: a one-checkbox schema over an empty profile — the
checkbox key `q1` is present despite the value resolving to
`undefined`, and it is the origin of the only output key. -/
theorem c3_output_invariant_witness :
    (FieldMapper.assocGet
      (FieldMapper.mapProfileToForm (fun _ => none)
        ⟨some [⟨some [⟨some "q1", some "flag", none, none, some "Checkbox", none⟩]⟩]⟩
        (.obj []))
      ((some "q1").getD "")).isSome = true ∧
    ∃ part' ∈ [(⟨some [⟨some "q1", some "flag", none, none, some "Checkbox", none⟩]⟩ :
        FieldMapper.Part)], ∃ fields', part'.fields = some fields' ∧ ∃ f' ∈ fields',
      f'.field_id = some "q1" ∧ "q1" ≠ "" ∧
      FieldMapper.optTruthy f'.data_path = true ∧
      (FieldMapper.NonEmptyVal
        (FieldMapper.getNestedValue (.obj []) (f'.data_path.getD "")) ∨
        f'.ty = some "Checkbox" ∨ f'.ty = some "Radio") := by
  exact c3_output_invariant (fun _ => none)
    ⟨some [⟨some [⟨some "q1", some "flag", none, none, some "Checkbox", none⟩]⟩]⟩
    (.obj [])
    [⟨some [⟨some "q1", some "flag", none, none, some "Checkbox", none⟩]⟩]
    ⟨some [⟨some "q1", some "flag", none, none, some "Checkbox", none⟩]⟩
    [⟨some "q1", some "flag", none, none, some "Checkbox", none⟩]
    ⟨some "q1", some "flag", none, none, some "Checkbox", none⟩
    "q1"
    ⟨.str "", "q1", ⟨some "q1", some "flag", none, none, some "Checkbox", none⟩, .undef⟩
    (by rfl) (by simp) (by rfl) (by simp) (by rfl) (by rfl) (Or.inl rfl) (by rfl)

/-! ## Decimal and calendar lemmas (toward claim C1) -/

theorem str_data_append (a b : String) : (a ++ b).data = a.data ++ b.data := by
  obtain ⟨la⟩ := a
  obtain ⟨lb⟩ := b
  rfl

theorem decDigit_spec (n : Nat) :
    (decDigit n).isDigit = true ∧ (decDigit n).toNat - 48 = n % 10 := by
  have h : n % 10 < 10 := Nat.mod_lt _ (by omega)
  unfold decDigit
  set r := n % 10 with hr
  interval_cases r <;> exact ⟨by decide, by decide⟩

theorem natToDecAux_small (fuel n : Nat) (h : n < 10) :
    natToDecAux fuel n = [decDigit n] := by
  cases fuel <;> simp [natToDecAux, h]

theorem natToDecAux_two (fuel n : Nat) (h1 : 10 ≤ n) (h2 : n ≤ 99) (hf : 1 ≤ fuel) :
    natToDecAux fuel n = [decDigit (n / 10), decDigit n] := by
  obtain ⟨f, rfl⟩ : ∃ f, fuel = f + 1 := ⟨fuel - 1, by omega⟩
  simp only [natToDecAux]
  rw [if_neg (by omega), natToDecAux_small f (n / 10) (by omega)]
  rfl

theorem natToDecAux_three (fuel n : Nat) (h1 : 100 ≤ n) (h2 : n ≤ 999) (hf : 2 ≤ fuel) :
    natToDecAux fuel n =
      [decDigit (n / 100), decDigit (n / 10), decDigit n] := by
  obtain ⟨f, rfl⟩ : ∃ f, fuel = f + 1 := ⟨fuel - 1, by omega⟩
  simp only [natToDecAux]
  rw [if_neg (by omega),
    natToDecAux_two f (n / 10) (by omega) (by omega) (by omega)]
  have e1 : n / 10 / 10 = n / 100 := by omega
  rw [e1]
  rfl

theorem natToDecAux_four (fuel n : Nat) (h1 : 1000 ≤ n) (h2 : n ≤ 9999) (hf : 3 ≤ fuel) :
    natToDecAux fuel n =
      [decDigit (n / 1000), decDigit (n / 100), decDigit (n / 10), decDigit n] := by
  obtain ⟨f, rfl⟩ : ∃ f, fuel = f + 1 := ⟨fuel - 1, by omega⟩
  simp only [natToDecAux]
  rw [if_neg (by omega),
    natToDecAux_three f (n / 10) (by omega) (by omega) (by omega)]
  have e1 : n / 10 / 100 = n / 1000 := by omega
  have e2 : n / 10 / 10 = n / 100 := by omega
  rw [e1, e2]
  rfl

theorem natToDec_two (n : Nat) (h1 : 10 ≤ n) (h2 : n ≤ 99) :
    (natToDec n).data = [decDigit (n / 10), decDigit n] := by
  unfold natToDec natToDecList
  rw [natToDecAux_two n n h1 h2 (by omega)]

theorem natToDec_four (y : Nat) (h1 : 1000 ≤ y) (h2 : y ≤ 9999) :
    (natToDec y).data =
      [decDigit (y / 1000), decDigit (y / 100), decDigit (y / 10), decDigit y] := by
  unfold natToDec natToDecList
  rw [natToDecAux_four y y h1 h2 (by omega)]

theorem intToDec_natCast (n : Nat) : intToDec (n : Int) = natToDec n := by
  unfold intToDec
  rw [if_neg (by omega)]
  simp

theorem pad2_digits (n : Nat) (h : n ≤ 99) :
    (pad2 (n : Int)).data = [decDigit (n / 10), decDigit n] := by
  unfold pad2
  rw [intToDec_natCast]
  by_cases h10 : n < 10
  · have hone : (natToDec n).data = [decDigit n] := by
      unfold natToDec natToDecList
      exact natToDecAux_small n n h10
    have hlen : (natToDec n).data.length = 1 := by rw [hone]; rfl
    simp only [hlen]
    rw [if_pos (by omega)]
    rw [str_data_append, hone]
    have hz : n / 10 = 0 := by omega
    rw [hz]
    rfl
  · have htwo := natToDec_two n (by omega) h
    have hlen : (natToDec n).data.length = 2 := by rw [htwo]; rfl
    simp only [hlen]
    rw [if_neg (by omega)]
    exact htwo

theorem decListToNat_two (n : Nat) (h : n ≤ 99) :
    decListToNat [decDigit (n / 10), decDigit n] = n := by
  obtain ⟨hd1, hv1⟩ := decDigit_spec (n / 10)
  obtain ⟨hd2, hv2⟩ := decDigit_spec n
  simp only [decListToNat, List.foldl_cons, List.foldl_nil]
  omega

theorem decListToNat_four (y : Nat) (h1 : 1000 ≤ y) (h2 : y ≤ 9999) :
    decListToNat
      [decDigit (y / 1000), decDigit (y / 100), decDigit (y / 10), decDigit y] = y := by
  obtain ⟨ha1, ha2⟩ := decDigit_spec (y / 1000)
  obtain ⟨hb1, hb2⟩ := decDigit_spec (y / 100)
  obtain ⟨hc1, hc2⟩ := decDigit_spec (y / 10)
  obtain ⟨he1, he2⟩ := decDigit_spec y
  simp only [decListToNat, List.foldl_cons, List.foldl_nil]
  omega

theorem daysInMonth_le31 (y m0 : Int) : daysInMonth y m0 ≤ 31 := by
  unfold daysInMonth
  split
  · split <;> omega
  · split <;> omega

theorem daysInMonth_pos (y m0 : Int) : 1 ≤ daysInMonth y m0 := by
  unfold daysInMonth
  split
  · split <;> omega
  · split <;> omega

theorem mkJsDate_valid (y m d : Int) (hy : 100 ≤ y) (hm1 : 1 ≤ m) (hm2 : m ≤ 12)
    (hd1 : 1 ≤ d) (hd2 : d ≤ daysInMonth y (m - 1)) :
    mkJsDate y (m - 1) d = (y, m - 1, d) := by
  unfold mkJsDate
  rw [if_neg (by omega)]
  have ht1 : (y * 12 + (m - 1)) / 12 = y := by omega
  have ht2 : (y * 12 + (m - 1)) % 12 = m - 1 := by omega
  show normDate (d.natAbs + 100) ((y * 12 + (m - 1)) / 12) ((y * 12 + (m - 1)) % 12) d =
    (y, m - 1, d)
  rw [ht1, ht2]
  obtain ⟨k, hk⟩ : ∃ k, d.natAbs + 100 = k + 1 := ⟨d.natAbs + 99, by omega⟩
  rw [hk]
  simp only [normDate]
  rw [if_neg (by omega), if_neg (by omega)]

theorem iso_data_explicit (y m d : Nat) (hy1 : 1000 ≤ y) (hy2 : y ≤ 9999)
    (hm : m ≤ 99) (hd : d ≤ 99) :
    (natToDec y ++ "-" ++ pad2 (m : Int) ++ "-" ++ pad2 (d : Int)).data =
      [decDigit (y / 1000), decDigit (y / 100), decDigit (y / 10), decDigit y, '-',
        decDigit (m / 10), decDigit m, '-', decDigit (d / 10), decDigit d] := by
  simp only [str_data_append, natToDec_four y hy1 hy2, pad2_digits m hm,
    pad2_digits d hd]
  rfl

theorem fmt_data_explicit (y m d : Nat) (hy1 : 1000 ≤ y) (hy2 : y ≤ 9999)
    (hm : m ≤ 99) (hd : d ≤ 99) :
    (pad2 (m : Int) ++ "/" ++ pad2 (d : Int) ++ "/" ++ natToDec y).data =
      [decDigit (m / 10), decDigit m, '/', decDigit (d / 10), decDigit d, '/',
        decDigit (y / 1000), decDigit (y / 100), decDigit (y / 10), decDigit y] := by
  simp only [str_data_append, natToDec_four y hy1 hy2, pad2_digits m hm,
    pad2_digits d hd]
  rfl

theorem ne_empty_of_data_ten (s : String) (l : List Char) (c : Char)
    (h : s.data = c :: l) : s ≠ "" := by
  intro he
  rw [he] at h
  simp at h

theorem formatDate_iso (hostParse : JsDateParse) (y m d : Nat)
    (hy1 : 1000 ≤ y) (hy2 : y ≤ 9999) (hm1 : 1 ≤ m) (hm2 : m ≤ 12) (hd1 : 1 ≤ d)
    (hd2 : (d : Int) ≤ daysInMonth (y : Int) ((m : Int) - 1)) :
    FieldMapper.formatDate hostParse
      (.str (natToDec y ++ "-" ++ pad2 (m : Int) ++ "-" ++ pad2 (d : Int))) =
      pad2 (m : Int) ++ "/" ++ pad2 (d : Int) ++ "/" ++ natToDec y := by
  have hd99 : d ≤ 99 := by
    have := daysInMonth_le31 (y : Int) ((m : Int) - 1)
    omega
  have hdata := iso_data_explicit y m d hy1 hy2 (by omega) hd99
  have hne : (natToDec y ++ "-" ++ pad2 (m : Int) ++ "-" ++ pad2 (d : Int)) ≠ "" :=
    ne_empty_of_data_ten _ _ _ hdata
  have htr : jsTruthy (.str (natToDec y ++ "-" ++ pad2 (m : Int) ++ "-" ++
      pad2 (d : Int))) = true := by
    simp [jsTruthy, hne]
  have hiso : isIsoDateStr (natToDec y ++ "-" ++ pad2 (m : Int) ++ "-" ++
      pad2 (d : Int)) = true := by
    simp [isIsoDateStr, hdata, charAt, (decDigit_spec _).1]
  have htake4 : (natToDec y ++ "-" ++ pad2 (m : Int) ++ "-" ++
      pad2 (d : Int)).data.take 4 =
      [decDigit (y / 1000), decDigit (y / 100), decDigit (y / 10), decDigit y] := by
    rw [hdata]
    rfl
  have hdrop5 : ((natToDec y ++ "-" ++ pad2 (m : Int) ++ "-" ++
      pad2 (d : Int)).data.drop 5).take 2 = [decDigit (m / 10), decDigit m] := by
    rw [hdata]
    rfl
  have hdrop8 : (natToDec y ++ "-" ++ pad2 (m : Int) ++ "-" ++
      pad2 (d : Int)).data.drop 8 = [decDigit (d / 10), decDigit d] := by
    rw [hdata]
    rfl
  simp only [FieldMapper.formatDate, htr, not_true_eq_false, Bool.false_eq_true,
    if_false, hiso, if_true]
  rw [htake4, hdrop5, hdrop8, decListToNat_four y hy1 hy2,
    decListToNat_two m (by omega), decListToNat_two d hd99]
  rw [mkJsDate_valid (y : Int) (m : Int) (d : Int) (by omega) (by omega) (by omega)
    (by omega) hd2]
  have hm0 : ((m : Int) - 1 + 1) = (m : Int) := by omega
  rw [hm0, intToDec_natCast]

theorem parseDate_of_format (hostParse : JsDateParse) (y m d : Nat)
    (hy1 : 1000 ≤ y) (hy2 : y ≤ 9999) (hm : m ≤ 99) (hd : d ≤ 99) :
    FieldMapper.parseDate hostParse
      (pad2 (m : Int) ++ "/" ++ pad2 (d : Int) ++ "/" ++ natToDec y) =
      natToDec y ++ "-" ++ pad2 (m : Int) ++ "-" ++ pad2 (d : Int) := by
  have hdataf := fmt_data_explicit y m d hy1 hy2 hm hd
  have hdata := iso_data_explicit y m d hy1 hy2 hm hd
  have hne : (pad2 (m : Int) ++ "/" ++ pad2 (d : Int) ++ "/" ++ natToDec y) ≠ "" :=
    ne_empty_of_data_ten _ _ _ hdataf
  have hmm : isMmDdYyyyStr (pad2 (m : Int) ++ "/" ++ pad2 (d : Int) ++ "/" ++
      natToDec y) = true := by
    simp [isMmDdYyyyStr, hdataf, charAt, (decDigit_spec _).1]
  have hrhs : (natToDec y ++ "-" ++ pad2 (m : Int) ++ "-" ++ pad2 (d : Int)) =
      String.mk [decDigit (y / 1000), decDigit (y / 100), decDigit (y / 10),
        decDigit y, '-', decDigit (m / 10), decDigit m, '-', decDigit (d / 10),
        decDigit d] := by
    conv_lhs => rw [show (natToDec y ++ "-" ++ pad2 (m : Int) ++ "-" ++
      pad2 (d : Int)) = String.mk (natToDec y ++ "-" ++ pad2 (m : Int) ++ "-" ++
      pad2 (d : Int)).data from rfl]
    rw [hdata]
  rw [hrhs]
  simp only [FieldMapper.parseDate, hne, if_false, hmm, if_true]
  rw [hdataf]
  rfl

/-! ## Claim C1 -/

namespace FieldMapper

theorem mapFormToProfile_singleton (hostParse : JsDateParse) (f : FieldDesc)
    (profile : JsVal) (fd : List (String × ResolvedEntry)) (q : JsVal)
    (hq : reverseFieldStep hostParse fd profile f = some q) :
    mapFormToProfile hostParse ⟨some [⟨some [f]⟩]⟩ fd profile = some q := by
  simp [mapFormToProfile, List.foldlM_cons, List.foldlM_nil, hq]

/-- The common skeleton of the round-trip: if the descriptor's resolved
value is included, formats to `w`, and `parseValue` recovers the
original value from `w`, then mapping the profile to the form and back
writes the original value at the descriptor's path. -/
theorem roundtrip_core (hostParse : JsDateParse) (profile : JsVal) (f : FieldDesc)
    (fid path : String) (inter : List String) (last : String) (w : String)
    (hid : f.field_id = some fid) (hfid : fid ≠ "")
    (hdp : f.data_path = some path) (hpathne : path ≠ "")
    (hvm : f.value_mapping = none)
    (hsplit : pathParts path = inter ++ [last])
    (hfit : pathFits profile inter last = true)
    (hinc : shouldInclude (getNestedValue profile path) f = true)
    (hw : mappedOutput hostParse (getNestedValue profile path) f = w)
    (hparse : parseValue hostParse (.str w) f.ty = getNestedValue profile path) :
    ∃ p', mapFormToProfile hostParse ⟨some [⟨some [f]⟩]⟩
        (mapProfileToForm hostParse ⟨some [⟨some [f]⟩]⟩ profile) profile = some p' ∧
      getNestedValue p' path = getNestedValue profile path := by
  have hig : f.field_id.getD "" = fid := by rw [hid]; rfl
  have hpg : f.data_path.getD "" = path := by rw [hdp]; rfl
  have hcond : ¬(¬optTruthy f.field_id = true ∨ ¬optTruthy f.data_path = true) := by
    simp [optTruthy, hid, hdp, hfid, hpathne]
  have hstep : mapFieldStep hostParse profile [] f =
      [(fid, ⟨.str w, pdfNameOf f, f, getNestedValue profile path⟩)] := by
    unfold mapFieldStep
    rw [if_neg hcond, hpg, if_pos hinc, hw, hig]
    rfl
  have hform : mapProfileToForm hostParse ⟨some [⟨some [f]⟩]⟩ profile =
      [(fid, ⟨.str w, pdfNameOf f, f, getNestedValue profile path⟩)] := hstep
  obtain ⟨p', hset, hgot⟩ :=
    setNestedValue_getNestedValue profile (getNestedValue profile path) path
      inter last hsplit hpathne hfit
  have hrev : reverseFieldStep hostParse
      [(fid, ⟨.str w, pdfNameOf f, f, getNestedValue profile path⟩)] profile f =
      some p' := by
    unfold reverseFieldStep
    rw [if_neg hcond, hig]
    have hget : assocGet
        [(fid, (⟨.str w, pdfNameOf f, f, getNestedValue profile path⟩ :
          ResolvedEntry))] fid =
        some ⟨.str w, pdfNameOf f, f, getNestedValue profile path⟩ := by
      simp [assocGet]
    simp only [hget]
    rw [if_neg (by simp [JsVal.isUndef])]
    rw [hvm, hpg]
    show setNestedValue profile path
      (parseValue hostParse (.str w) f.ty) = some p'
    rw [hparse]
    exact hset
  refine ⟨p', ?_, by rw [hgot]⟩
  rw [hform]
  exact mapFormToProfile_singleton hostParse f profile _ p' hrev

end FieldMapper

/-- C1 counterexample: a Checkbox descriptor over the profile value
`"true"` (a string) does not round-trip: `mapProfileToForm` formats the
string `"true"` to the mark `X`, and `mapFormToProfile` parses `X` back
to boolean `true`, so the original string value is replaced by a
boolean at the descriptor's `data_path`. -/
theorem c1_counterexample :
    FieldMapper.mapFormToProfile (fun _ => none)
      ⟨some [⟨some [⟨some "c1", some "flag", none, none, some "Checkbox", none⟩]⟩]⟩
      (FieldMapper.mapProfileToForm (fun _ => none)
        ⟨some [⟨some [⟨some "c1", some "flag", none, none, some "Checkbox", none⟩]⟩]⟩
        (.obj [("flag", .str "true")]))
      (.obj [("flag", .str "true")]) = some (.obj [("flag", .bool true)]) ∧
    FieldMapper.getNestedValue (.obj [("flag", .str "true")]) "flag" = .str "true" ∧
    FieldMapper.getNestedValue (.obj [("flag", .bool true)]) "flag" = .bool true ∧
    JsVal.bool true ≠ JsVal.str "true" := by
  refine ⟨by rfl, by rfl, by rfl, by simp⟩

/-- C1 (amended): for a descriptor with truthy `field_id` and
`data_path`, no `value_mapping`, and a `data_path` aligned with the
profile (`pathFits`), `mapFormToProfile ∘ mapProfileToForm` writes the
original scalar value back at the descriptor's `data_path` when the
stored value lies in the type's lossless domain: any string for Text
Input, any boolean for Checkbox, and for Date Input a calendar-valid
zero-padded ISO `YYYY-MM-DD` string with year between 1000 and 9999.
(The counterexample shows losslessness fails outside these domains — a
Checkbox over the string `"true"` comes back as a boolean; years below
1000 would be mangled by the ECMAScript two-digit-year rule or lose
their leading zeros.) -/
theorem c1_roundtrip (hostParse : JsDateParse) (profile : JsVal)
    (f : FieldMapper.FieldDesc) (fid path : String)
    (inter : List String) (last : String)
    (hid : f.field_id = some fid) (hfid : fid ≠ "")
    (hdp : f.data_path = some path) (hpathne : path ≠ "")
    (hvm : f.value_mapping = none)
    (hsplit : pathParts path = inter ++ [last])
    (hfit : FieldMapper.pathFits profile inter last = true)
    (hty : (f.ty = some "Text Input" ∧
        (∃ t, FieldMapper.getNestedValue profile path = .str t)) ∨
      (f.ty = some "Checkbox" ∧
        (∃ b, FieldMapper.getNestedValue profile path = .bool b)) ∨
      (f.ty = some "Date Input" ∧
        (∃ y m d : Nat, FieldMapper.getNestedValue profile path =
            .str (natToDec y ++ "-" ++ pad2 (m : Int) ++ "-" ++ pad2 (d : Int)) ∧
          1000 ≤ y ∧ y ≤ 9999 ∧ 1 ≤ m ∧ m ≤ 12 ∧ 1 ≤ d ∧
          (d : Int) ≤ daysInMonth (y : Int) ((m : Int) - 1)))) :
    ∃ p', FieldMapper.mapFormToProfile hostParse ⟨some [⟨some [f]⟩]⟩
        (FieldMapper.mapProfileToForm hostParse ⟨some [⟨some [f]⟩]⟩ profile)
        profile = some p' ∧
      FieldMapper.getNestedValue p' path = FieldMapper.getNestedValue profile path := by
  have hig : f.field_id.getD "" = fid := by rw [hid]; rfl
  have hpg : f.data_path.getD "" = path := by rw [hdp]; rfl
  have hcond : ¬(¬FieldMapper.optTruthy f.field_id = true ∨
      ¬FieldMapper.optTruthy f.data_path = true) := by
    simp [FieldMapper.optTruthy, hid, hdp, hfid, hpathne]
  rcases hty with ⟨htyT, t, hval⟩ | ⟨htyC, b, hval⟩ |
    ⟨htyD, y, m, d, hval, hy1, hy2, hm1, hm2, hd1, hd2⟩
  · by_cases hte : t = ""
    · subst hte
      have hstep : FieldMapper.mapFieldStep hostParse profile [] f = [] := by
        unfold FieldMapper.mapFieldStep
        rw [if_neg hcond, hpg, hval,
          if_neg (by simp +decide [FieldMapper.shouldInclude, JsVal.isUndef,
            JsVal.isNull, JsVal.eqStr, htyT])]
      have hrev : FieldMapper.reverseFieldStep hostParse [] profile f =
          some profile := by
        unfold FieldMapper.reverseFieldStep
        rw [if_neg hcond, hig]
        rfl
      refine ⟨profile, ?_, rfl⟩
      have hform : FieldMapper.mapProfileToForm hostParse ⟨some [⟨some [f]⟩]⟩
          profile = [] := hstep
      rw [hform]
      exact FieldMapper.mapFormToProfile_singleton hostParse f profile [] profile hrev
    · refine FieldMapper.roundtrip_core hostParse profile f fid path inter last t
        hid hfid hdp hpathne hvm hsplit hfit ?_ ?_ ?_
      · rw [hval]
        simp [FieldMapper.shouldInclude, JsVal.isUndef, JsVal.isNull,
          JsVal.eqStr, hte]
      · rw [hval]
        unfold FieldMapper.mappedOutput
        rw [hvm, htyT]
        rfl
      · rw [htyT, hval]
        unfold FieldMapper.parseValue
        rw [if_neg (by simp [JsVal.isNullOrUndef, JsVal.eqStr, hte])]
        rfl
  · cases b with
    | true =>
      refine FieldMapper.roundtrip_core hostParse profile f fid path inter last "X"
        hid hfid hdp hpathne hvm hsplit hfit ?_ ?_ ?_
      · exact FieldMapper.shouldInclude_of_ty _ f (Or.inl htyC)
      · rw [hval]
        unfold FieldMapper.mappedOutput
        rw [hvm, htyC]
        rfl
      · rw [htyC, hval]
        rfl
    | false =>
      refine FieldMapper.roundtrip_core hostParse profile f fid path inter last ""
        hid hfid hdp hpathne hvm hsplit hfit ?_ ?_ ?_
      · exact FieldMapper.shouldInclude_of_ty _ f (Or.inl htyC)
      · rw [hval]
        unfold FieldMapper.mappedOutput
        rw [hvm, htyC]
        rfl
      · rw [htyC, hval]
        rfl
  · have hd99 : d ≤ 99 := by
      have := daysInMonth_le31 (y : Int) ((m : Int) - 1)
      omega
    have hfmt := fmt_data_explicit y m d hy1 hy2 (by omega) hd99
    have hfne : (pad2 (m : Int) ++ "/" ++ pad2 (d : Int) ++ "/" ++ natToDec y) ≠ "" :=
      ne_empty_of_data_ten _ _ _ hfmt
    have hione := iso_data_explicit y m d hy1 hy2 (by omega) hd99
    have hine : (natToDec y ++ "-" ++ pad2 (m : Int) ++ "-" ++ pad2 (d : Int)) ≠ "" :=
      ne_empty_of_data_ten _ _ _ hione
    refine FieldMapper.roundtrip_core hostParse profile f fid path inter last
      (pad2 (m : Int) ++ "/" ++ pad2 (d : Int) ++ "/" ++ natToDec y)
      hid hfid hdp hpathne hvm hsplit hfit ?_ ?_ ?_
    · rw [hval]
      simp [FieldMapper.shouldInclude, JsVal.isUndef, JsVal.isNull,
        JsVal.eqStr, hine]
    · rw [hval]
      unfold FieldMapper.mappedOutput
      rw [hvm, htyD]
      show FieldMapper.formatDate hostParse
        (.str (natToDec y ++ "-" ++ pad2 (m : Int) ++ "-" ++ pad2 (d : Int))) = _
      exact formatDate_iso hostParse y m d hy1 hy2 hm1 hm2 hd1 hd2
    · rw [htyD, hval]
      unfold FieldMapper.parseValue
      rw [if_neg (by simp [JsVal.isNullOrUndef, JsVal.eqStr, hfne])]
      show JsVal.str (FieldMapper.parseDate hostParse
        (pad2 (m : Int) ++ "/" ++ pad2 (d : Int) ++ "/" ++ natToDec y)) = _
      rw [parseDate_of_format hostParse y m d hy1 hy2 (by omega) hd99]

/-- C1 witness: a Text Input descriptor at path `name` over the profile
`{name: "Ana"}` round-trips the string value. -/
theorem c1_roundtrip_witness :
    ∃ p', FieldMapper.mapFormToProfile (fun _ => none)
        ⟨some [⟨some [⟨some "n1", some "name", none, none, some "Text Input", none⟩]⟩]⟩
        (FieldMapper.mapProfileToForm (fun _ => none)
          ⟨some [⟨some [⟨some "n1", some "name", none, none,
            some "Text Input", none⟩]⟩]⟩
          (.obj [("name", .str "Ana")]))
        (.obj [("name", .str "Ana")]) = some p' ∧
      FieldMapper.getNestedValue p' "name" =
        FieldMapper.getNestedValue (.obj [("name", .str "Ana")]) "name" := by
  exact c1_roundtrip (fun _ => none) (.obj [("name", .str "Ana")])
    ⟨some "n1", some "name", none, none, some "Text Input", none⟩ "n1" "name"
    [] "name" (by rfl) (by simp) (by rfl) (by simp) (by rfl) (by rfl) (by rfl)
    (Or.inl ⟨rfl, "Ana", by rfl⟩)
